import Mathlib

/-!
Verification of the generic parameter-driven query engine and the schema
migration subsystem of the yalla-admin repository.

The query engine (src/lib generalQuery): `parseUrlParams` decodes a flat
URL-parameter list into a `QueryParams` record, four builders emit SQL text
plus an ordered bound-value list, and `generalQuery` dispatches, executes
through an injected executor, and normalises every outcome into a uniform
`QueryResult` envelope.

The migration subsystem (server bootstrap): `initDatabase` consults a
schema-version store and a table-existence prober, then creates, upgrades,
skips or force-resets the schema.  It is embedded as a pure state
transformer over an explicit database state that also records the trace of
issued statements, so that DDL counts are observable.

JavaScript-specific semantics are modelled explicitly: `parseIntJS` models
`parseInt` (NaN as `none`, leading-whitespace skip, sign, hex prefix),
`jsTruthyNum`/string-emptiness tests model JS truthiness at each `if`,
and mappings are association lists in insertion order (JS object key order
for the non-integer-like column names that occur here).
-/

namespace YallaAdmin

/-- A value bound to a positional placeholder: either a string drawn from a
request parameter, or a number (parsed limit/offset). -/
inductive Value where
  | str (s : String)
  | num (n : Int)
deriving DecidableEq, Repr

/-- One join specification.  `type` is a plain string because the source
casts `value.toUpperCase()` to the union type without validating it. -/
structure Join where
  table : String
  type : String
  «on» : String
deriving DecidableEq, Repr

/-- The structured query request produced by `parseUrlParams`
(the source's `QueryParams` interface).  `limit`/`offset` are
`Option (Option Int)`: outer `none` = absent (`undefined`), inner `none` =
`NaN` from `parseInt`. -/
structure QueryParams where
  table : String
  operation : String
  columns : Option (List String)
  «where» : Option (List (String × String))
  orderBy : Option String
  orderDirection : String
  limit : Option (Option Int)
  offset : Option (Option Int)
  data : Option (List (String × String))
  joins : List Join
deriving DecidableEq, Repr

/-- Result of a builder: the SQL text and the ordered bound values. -/
structure Built where
  query : String
  values : List Value
deriving DecidableEq, Repr

instance {ε α : Type} [DecidableEq ε] [DecidableEq α] :
    DecidableEq (Except ε α) := fun a b =>
  match a, b with
  | .ok x, .ok y =>
      if h : x = y then isTrue (by rw [h]) else isFalse (by simp [h])
  | .error x, .error y =>
      if h : x = y then isTrue (by rw [h]) else isFalse (by simp [h])
  | .ok _, .error _ => isFalse (by simp)
  | .error _, .ok _ => isFalse (by simp)

/-- Does `s` start with `pre` (character-list level, structurally
recursive so that concrete runs reduce in the kernel)? -/
def startsWithL : List Char → List Char → Bool
  | _, [] => true
  | [], _ :: _ => false
  | c :: cs, p :: ps => c == p && startsWithL cs ps

/-- Split on a single-character separator (models `String.split(sep)` for
the one-character separators used here). -/
def splitOnCharAux (sep : Char) : List Char → List Char → List String
  | [], acc => [String.mk acc.reverse]
  | c :: cs, acc =>
      if c == sep then String.mk acc.reverse :: splitOnCharAux sep cs []
      else splitOnCharAux sep cs (c :: acc)

/-- Split a string on a single-character separator. -/
def splitOnChar (sep : Char) (s : String) : List String :=
  splitOnCharAux sep s.data []

/-- Models `String.prototype.trim` (whitespace from both ends). -/
def trimJS (s : String) : String :=
  String.mk (((s.data.dropWhile Char.isWhitespace).reverse.dropWhile
    Char.isWhitespace).reverse)

/-- ASCII upper-casing of one character (models `toUpperCase` on the ASCII
inputs that occur here). -/
def toUpperCharJS (c : Char) : Char :=
  if 'a' ≤ c ∧ c ≤ 'z' then Char.ofNat (c.toNat - 32) else c

/-- Models `String.prototype.toUpperCase` (ASCII). -/
def toUpperJS (s : String) : String := String.mk (s.data.map toUpperCharJS)

/-- Models JavaScript `Array.prototype.join(sep)`. -/
def joinSep (sep : String) : List String → String
  | [] => ""
  | [x] => x
  | x :: y :: xs => x ++ sep ++ joinSep sep (y :: xs)

/-- Models `URLSearchParams.get`: first value for the key, or null. -/
def getParam (entries : List (String × String)) (k : String) : Option String :=
  (entries.find? (fun p => p.1 = k)).map (fun p => p.2)

/-- Models JS object assignment `obj[k] = v`: overwrite in place when the
key exists, else append (insertion order preserved). -/
def objSet (m : List (String × String)) (k v : String) : List (String × String) :=
  if m.any (fun p => p.1 = k) then m.map (fun p => if p.1 = k then (k, v) else p)
  else m ++ [(k, v)]

/-- Is `c` a hexadecimal digit? -/
def isHexDigitJS (c : Char) : Bool :=
  c.isDigit || ('a' <= c && c <= 'f') || ('A' <= c && c <= 'F')

/-- Numeric value of a hex digit character. -/
def hexVal (c : Char) : Nat :=
  if c.isDigit then c.toNat - 48
  else if 'a' ≤ c ∧ c ≤ 'f' then c.toNat - 87
  else c.toNat - 55

/-- Models JavaScript `parseInt(s)` (radix unspecified): skip leading
whitespace, optional sign, optional `0x`/`0X` hex prefix, then the longest
digit run; no digits gives NaN (`none`). -/
def parseIntJS (s : String) : Option Int :=
  let cs := s.data.dropWhile (fun c => c.isWhitespace)
  let signed : Int × List Char :=
    match cs with
    | '-' :: rest => (-1, rest)
    | '+' :: rest => (1, rest)
    | _ => (1, cs)
  let hexed : Bool × List Char :=
    match signed.2 with
    | '0' :: 'x' :: rest => (true, rest)
    | '0' :: 'X' :: rest => (true, rest)
    | _ => (false, signed.2)
  let ds := hexed.2.takeWhile (fun c => if hexed.1 then isHexDigitJS c else c.isDigit)
  if ds = [] then none
  else
    let radix : Nat := if hexed.1 then 16 else 10
    some (signed.1 * Int.ofNat (ds.foldl (fun a c => a * radix + hexVal c) 0))

/-- Models the `params.get(k) ? parseInt(params.get(k)!) : undefined`
pattern used for `limit` and `offset` (empty string is falsy). -/
def limitField (o : Option String) : Option (Option Int) :=
  match o with
  | some s => if s = "" then none else some (parseIntJS s)
  | none => none

/-- JS truthiness of a `number | undefined` slot (`undefined`, `0` and
`NaN` are falsy). -/
def jsTruthyNum (o : Option (Option Int)) : Bool :=
  match o with
  | some (some n) => n != 0
  | _ => false

/-- JS truthiness of a `string | null` slot (null and "" are falsy). -/
def jsTruthyStr (o : Option String) : Bool :=
  match o with
  | some s => s != ""
  | none => false

/-- Collect the `prefix`-keyed entries of the parameter list into a JS
object (association list), stripping the prefix (the source's
`key.replace(pre, "")` on a key that starts with `pre`). -/
def collectPrefixed (entries : List (String × String)) (pre : String) :
    List (String × String) :=
  entries.foldl
    (fun m p =>
      if startsWithL p.1.data pre.data then
        objSet m (String.mk (p.1.data.drop pre.data.length)) p.2
      else m)
    []

/-- Default join record created when an index is first touched:
`{ table: "", type: "INNER", on: "" }`. -/
def defaultJoin : Join := { table := "", type := "INNER", «on» := "" }

/-- Grow the join array so that index `i` exists, filling with defaults
(JS sparse-array holes behave like the default record here because the
final filter removes entries with empty `table` or `on`). -/
def growJoins (js : List Join) (i : Nat) : List Join :=
  if i < js.length then js else js ++ List.replicate (i + 1 - js.length) defaultJoin

/-- Set one field of the join record at index `i`. -/
def setJoinField (js : List Join) (i : Nat) (property value : String) : List Join :=
  (growJoins js i).mapIdx (fun j jn =>
    if j = i then
      if property = "table" then { jn with table := value }
      else if property = "type" then { jn with type := toUpperJS value }
      else if property = "on" then { jn with «on» := value }
      else jn
    else jn)

/-- Parse the `join_<i>_<prop>` parameters.  A key whose index token does
not parse as a non-negative integer sets a plain object property on the JS
array, never an element, so it is ignored. -/
def parseJoins (entries : List (String × String)) : List Join :=
  let joinParams := entries.filter (fun p => startsWithL p.1.data ("join_").data)
  let js := joinParams.foldl
    (fun js p =>
      let parts := splitOnChar '_' p.1
      match parseIntJS (parts.getD 1 "") with
      | some i =>
          if i < 0 then js
          else setJoinField js i.toNat (parts.getD 2 "") p.2
      | none => js)
    []
  js.filter (fun j => j.table != "" && j.«on» != "")

/-- The parameter parser (the source's `parseUrlParams`), over the ordered
list of URL search parameters. -/
def parseUrlParams (entries : List (String × String)) :
    Except String QueryParams :=
  let table := getParam entries "table"
  let operation := getParam entries "operation"
  if ¬ (jsTruthyStr table ∧ jsTruthyStr operation) then
    .error "Missing required parameters: table and operation"
  else
    let columns := (getParam entries "columns").map
      (fun s => (splitOnChar ',' s).map (fun col => trimJS col))
    let orderBy := getParam entries "orderBy"
    let orderDirection :=
      match (getParam entries "orderDirection").map (fun s => toUpperJS s) with
      | some s => if s = "" then "ASC" else s
      | none => "ASC"
    let limit := limitField (getParam entries "limit")
    let offset := limitField (getParam entries "offset")
    let whereMap := collectPrefixed entries "where_"
    let dataMap := collectPrefixed entries "data_"
    .ok
      { table := table.getD ""
        operation := operation.getD ""
        columns := columns
        «where» := if whereMap.length > 0 then some whereMap else none
        orderBy := orderBy
        orderDirection := orderDirection
        limit := limit
        offset := offset
        data := if dataMap.length > 0 then some dataMap else none
        joins := parseJoins entries }

/-- The `keys(m).map((key, index) => { values.push(m[key]); return
key + " = $" + values.length })` pattern shared by all builders: threads
the growing value list and returns it with the clause fragments. -/
def buildConditions (vs : List Value) :
    List (String × String) → List Value × List String
  | [] => (vs, [])
  | (k, v) :: rest =>
      let vs' := vs ++ [Value.str v]
      let r := buildConditions vs' rest
      (r.1, (k ++ " = $" ++ toString vs'.length) :: r.2)

/-- The column list fragment of a select:
`columns && columns.length > 0 ? columns.join(", ") : "*"`. -/
def selectColStr (p : QueryParams) : String :=
  match p.columns with
  | some cs => if cs.length > 0 then joinSep ", " cs else "*"
  | none => "*"

/-- The joins fragment of a select: one
`" <type> JOIN <table> ON <on>"` per join, in list order. -/
def selectJoinStr (p : QueryParams) : String :=
  joinSep ""
    (p.joins.map (fun j => " " ++ j.type ++ " JOIN " ++ j.table ++ " ON " ++ j.«on»))

/-- The WHERE clause of a select (emitted only for a present, non-empty
mapping) together with the values pushed for it. -/
def selectWherePart (p : QueryParams) : List Value × String :=
  match p.«where» with
  | some w =>
      if w.length > 0 then
        let r := buildConditions [] w
        (r.1, " WHERE " ++ joinSep " AND " r.2)
      else ([], "")
  | none => ([], "")

/-- The ORDER BY clause of a select (`if (orderBy)` is JS truthiness). -/
def selectOrderPart (p : QueryParams) : String :=
  if jsTruthyStr p.orderBy then
    " ORDER BY " ++ p.orderBy.getD "" ++ " " ++ p.orderDirection
  else ""

/-- The select builder (the source's `buildSelectQuery`). -/
def buildSelectQuery (p : QueryParams) : Except String Built :=
  let wr := selectWherePart p
  let lr : List Value × String :=
    if jsTruthyNum p.limit then
      (wr.1 ++ [Value.num ((p.limit.getD none).getD 0)],
       " LIMIT $" ++ toString (wr.1.length + 1))
    else (wr.1, "")
  let orr : List Value × String :=
    if jsTruthyNum p.offset then
      (lr.1 ++ [Value.num ((p.offset.getD none).getD 0)],
       " OFFSET $" ++ toString (lr.1.length + 1))
    else (lr.1, "")
  .ok
    { query := "SELECT " ++ selectColStr p ++ " FROM " ++ p.table ++
        selectJoinStr p ++ wr.2 ++ selectOrderPart p ++ lr.2 ++ orr.2
      values := orr.1 }

/-- The insert builder (the source's `buildInsertQuery`). -/
def buildInsertQuery (p : QueryParams) : Except String Built :=
  match p.data with
  | none => .error "INSERT operation requires data parameters"
  | some d =>
      if d.length = 0 then .error "INSERT operation requires data parameters"
      else
        let columns := d.map (fun kv => kv.1)
        let values := d.map (fun kv => Value.str kv.2)
        let placeholders := (List.range values.length).map
          (fun index => "$" ++ toString (index + 1))
        .ok
          { query := "INSERT INTO " ++ p.table ++ " (" ++ joinSep ", " columns ++
              ") VALUES (" ++ joinSep ", " placeholders ++ ") RETURNING *"
            values := values }

/-- The update builder (the source's `buildUpdateQuery`). -/
def buildUpdateQuery (p : QueryParams) : Except String Built :=
  match p.data with
  | none => .error "UPDATE operation requires data parameters"
  | some d =>
      if d.length = 0 then .error "UPDATE operation requires data parameters"
      else
        match p.«where» with
        | none => .error "UPDATE operation requires WHERE conditions for safety"
        | some w =>
            if w.length = 0 then
              .error "UPDATE operation requires WHERE conditions for safety"
            else
              let sr := buildConditions [] d
              let query := "UPDATE " ++ p.table ++ " SET " ++ joinSep ", " sr.2
              let cr := buildConditions sr.1 w
              .ok
                { query := query ++ " WHERE " ++ joinSep " AND " cr.2 ++ " RETURNING *"
                  values := cr.1 }

/-- The delete builder (the source's `buildDeleteQuery`). -/
def buildDeleteQuery (p : QueryParams) : Except String Built :=
  match p.«where» with
  | none => .error "DELETE operation requires WHERE conditions for safety"
  | some w =>
      if w.length = 0 then
        .error "DELETE operation requires WHERE conditions for safety"
      else
        let cr := buildConditions [] w
        .ok
          { query := "DELETE FROM " ++ p.table ++ " WHERE " ++
              joinSep " AND " cr.2 ++ " RETURNING *"
            values := cr.1 }

/-- The uniform response envelope (the source's `QueryResult`), abstract
in the row-set type returned by the executor. -/
structure QueryResult (α : Type) where
  success : Bool
  data : Option α
  error : Option String
  operation : Option String
  table : Option String
deriving DecidableEq, Repr

/-- The failure envelope built in the `catch` branch of `generalQuery`. -/
def failureEnvelope (α : Type) (msg : String) : QueryResult α :=
  { success := false, data := none, error := some msg,
    operation := none, table := none }

/-- The execution stage of `generalQuery`: run the built statement through
the injected executor `exec` (modelling `sql.unsafe`) and build the
envelope; a builder error short-circuits to the failure envelope without
calling the executor. -/
def execPhase {α : Type} (exec : String → List Value → Except String α)
    (operation table : String) (queryData : Except String Built) :
    QueryResult α :=
  match queryData with
  | .error e => failureEnvelope α e
  | .ok qd =>
      match exec qd.query qd.values with
      | .error e => failureEnvelope α e
      | .ok rows =>
          { success := true, data := some rows, error := none,
            operation := some operation, table := some table }

/-- The dispatch stage of `generalQuery`: select the builder by operation
name. -/
def dispatchBuilder (params : QueryParams) : Except String Built :=
  match params.operation with
  | "select" => buildSelectQuery params
  | "insert" => buildInsertQuery params
  | "update" => buildUpdateQuery params
  | "delete" => buildDeleteQuery params
  | op => .error ("Unsupported operation: " ++ op)

/-- The executor (the source's `generalQuery`): parse, dispatch to the
builder for the operation, execute through the injected executor, and
normalise every failure into the envelope.  It is a total function: no
exception crosses the request boundary. -/
def generalQuery {α : Type} (entries : List (String × String))
    (exec : String → List Value → Except String α) : QueryResult α :=
  match parseUrlParams entries with
  | .error e => failureEnvelope α e
  | .ok params =>
      execPhase exec params.operation params.table (dispatchBuilder params)

/-! ## Migration subsystem

The server bootstrap's `initDatabase` / `runMigrations` (schema version
store, table-existence prober, migration runner), embedded as pure state
transformers over an explicit database state.  Every statement sent to the
database interface is recorded in an issued-statement trace so that DDL
counts are observable, mirroring a call-count spy on the interface. -/

/-- One statement issued to the database interface. -/
inductive Stmt where
  | createTable (name : String) (ifNotExists : Bool)
  | createIndex (name : String)
  | dropTable (name : String)
  | insertVersion (version : Int)
  | selectVersion
  | selectExists (table : String)
  | selectCount (table : String)
deriving DecidableEq, Repr

/-- Is the statement DDL (schema definition), as a call-count spy on the
database interface would classify it? -/
def Stmt.isDDL : Stmt → Bool
  | .createTable _ _ => true
  | .createIndex _ => true
  | .dropTable _ => true
  | _ => false

/-- Explicit database state: whether the version-tracking relation exists,
the append-only version history (latest last), the set of existing managed
relations, and the trace of every statement issued so far. -/
structure Db where
  svExists : Bool
  versions : List (Int × String)
  tables : List String
  trace : List Stmt
deriving DecidableEq, Repr

/-- Append one issued statement to the trace. -/
def emit (s : Stmt) (db : Db) : Db := { db with trace := db.trace ++ [s] }

/-- The target schema version (the source's `CURRENT_SCHEMA_VERSION`). -/
def CURRENT_SCHEMA_VERSION : Int := 1

/-- `getCurrentSchemaVersion`: latest recorded version, or 0 when the
tracking relation is absent (its `catch` branch) or empty
(`result[0]?.version || 0`). -/
def getCurrentSchemaVersion (db : Db) : Int × Db :=
  let db := emit .selectVersion db
  if db.svExists then (((db.versions.getLast?).map (fun r => r.1)).getD 0, db)
  else (0, db)

/-- `createSchemaVersionsTable`: idempotent creation of the tracking
relation.  When the relation does not yet exist it is created empty;
`IF NOT EXISTS` leaves an existing relation untouched. -/
def createSchemaVersionsTable (db : Db) : Db :=
  let db := emit (.createTable "schema_versions" true) db
  if db.svExists then db else { db with svExists := true, versions := [] }

/-- `recordSchemaVersion`: append-only insert into the tracking relation;
fails when the relation does not exist. -/
def recordSchemaVersion (version : Int) (description : String) (db : Db) :
    Except String Unit × Db :=
  let db := emit (.insertVersion version) db
  if db.svExists then (.ok (), { db with versions := db.versions ++ [(version, description)] })
  else (.error "relation \x22schema_versions\x22 does not exist", db)

/-- `tableExists`: catalog-metadata probe. -/
def tableExists (t : String) (db : Db) : Bool × Db :=
  (db.tables.contains t, emit (.selectExists t) db)

/-- Insert a table name if absent (CREATE TABLE IF NOT EXISTS effect). -/
def addTable (t : String) (db : Db) : Db :=
  let db := emit (.createTable t true) db
  if db.tables.contains t then db else { db with tables := db.tables ++ [t] }

/-- `createInitialTables`: the four managed relations plus nine indexes,
all with existence-safe DDL. -/
def createInitialTables (db : Db) : Db :=
  let db := addTable "users" db
  let db := addTable "products" db
  let db := addTable "orders" db
  let db := addTable "order_items" db
  let db := emit (.createIndex "idx_users_email") db
  let db := emit (.createIndex "idx_users_active") db
  let db := emit (.createIndex "idx_products_user_id") db
  let db := emit (.createIndex "idx_products_category") db
  let db := emit (.createIndex "idx_products_in_stock") db
  let db := emit (.createIndex "idx_orders_user_id") db
  let db := emit (.createIndex "idx_orders_status") db
  let db := emit (.createIndex "idx_order_items_order_id") db
  let db := emit (.createIndex "idx_order_items_product_id") db
  db

/-- `DROP TABLE IF EXISTS t CASCADE`. -/
def dropTable (t : String) (db : Db) : Db :=
  let db := emit (.dropTable t) db
  { db with tables := db.tables.filter (fun x => x ≠ t) }

/-- Options accepted by `initDatabase`. -/
structure InitOptions where
  forceReset : Bool := false
  skipIfExists : Bool := false
deriving DecidableEq, Repr

/-- `runMigrations(fromVersion, toVersion)`: apply each version increment
in sequence, recording it.  The loop is phrased over the number of
remaining increments. -/
def runMigrationsAux (version : Int) (remaining : Nat) (db : Db) :
    Except String Unit × Db :=
  match remaining with
  | 0 => (.ok (), db)
  | r + 1 =>
      -- for CURRENT_SCHEMA_VERSION = 1 only the `case 1` no-op arm exists;
      -- every iteration records the version it reached
      match recordSchemaVersion version ("Migration to version " ++ toString version) db with
      | (.ok _, db) => runMigrationsAux (version + 1) r db
      | (.error e, db) => (.error e, db)

/-- `runMigrations`: iterate `version` from `fromVersion + 1` to
`toVersion`. -/
def runMigrations (fromVersion toVersion : Int) (db : Db) :
    Except String Unit × Db :=
  runMigrationsAux (fromVersion + 1) (toVersion - fromVersion).toNat db

/-- `initDatabase`: the migration runner.  Returns the startup outcome
(`Except` models throw/re-throw of fatal startup errors) together with the
final database state and trace. -/
def initDatabase (options : InitOptions) (db : Db) : Except String Unit × Db :=
  -- create schema versions table first
  let db := createSchemaVersionsTable db
  let cv := getCurrentSchemaVersion db
  let currentVersion := cv.1
  let db := cv.2
  -- Option 1: force reset (drops all tables), then early return
  if options.forceReset then
    let db := dropTable "order_items" db
    let db := dropTable "orders" db
    let db := dropTable "products" db
    let db := dropTable "users" db
    let db := dropTable "schema_versions" db
    let db := { db with svExists := false, versions := [] }
    let db := createSchemaVersionsTable db
    let db := createInitialTables db
    recordSchemaVersion CURRENT_SCHEMA_VERSION
      "Initial schema creation (force reset)" db
  -- Option 2: skip if database already exists, early return
  else if options.skipIfExists ∧ currentVersion ≥ CURRENT_SCHEMA_VERSION then
    (.ok (), db)
  else
    -- Option 3: smart migration based on current version
    let step : Except String Unit × Db :=
      if currentVersion = 0 then
        let u := tableExists "users" db
        let db := u.2
        let pr := tableExists "products" db
        let db := pr.2
        let db := createInitialTables db
        recordSchemaVersion CURRENT_SCHEMA_VERSION
          (if u.1 ∨ pr.1 then "Schema recovery - updated existing tables"
           else "Initial schema creation") db
      else if currentVersion < CURRENT_SCHEMA_VERSION then
        runMigrations currentVersion CURRENT_SCHEMA_VERSION db
      else (.ok (), db)
    match step with
    | (.error e, db) => (.error e, db)
    | (.ok _, db) =>
        -- test query to verify tables exist
        let db := emit (.selectCount "users") db
        if db.tables.contains "users" then (.ok (), db)
        else (.error "relation \x22users\x22 does not exist", db)

/-- Number of DDL statements in a trace. -/
def ddlCount (trace : List Stmt) : Nat := (trace.filter Stmt.isDDL).length

/-- The current schema version of a state, as `getCurrentSchemaVersion`
would report it (without issuing the query). -/
def schemaVersionOf (db : Db) : Int :=
  if db.svExists then (((db.versions.getLast?).map (fun r => r.1)).getD 0) else 0

/-! ## Positional-placeholder scanner

`placeholders s` extracts, left to right, the digit run following each `$`
in `s`.  It is the observation function for the placeholder-numbering
claims: a SQL text uses placeholders `$1 … $n` in order exactly when
`placeholders` returns `[toString 1, …, toString n]`. -/

/-- Scanner core.  The state is `none` outside a placeholder and
`some t` while reading the digit run after a `$` (run collected reversed
in `t`). -/
def phAux : Option (List Char) → List Char → List (List Char)
  | none, [] => []
  | some t, [] => [t.reverse]
  | none, c :: cs => if c = '$' then phAux (some []) cs else phAux none cs
  | some t, c :: cs =>
      if c.isDigit then phAux (some (c :: t)) cs
      else if c = '$' then t.reverse :: phAux (some []) cs
      else t.reverse :: phAux none cs

/-- The digit runs following each `$` of `s`, in order. -/
def placeholders (s : String) : List String :=
  (phAux none s.data).map (fun t => String.mk t)

/-- No character of `l` is `$`. -/
def dollarFreeL (l : List Char) : Prop := ∀ c ∈ l, c ≠ '$'

instance (l : List Char) : Decidable (dollarFreeL l) := by
  unfold dollarFreeL; infer_instance

/-- No character of `s` is `$` (decidable, used as a hypothesis on
identifiers interpolated into SQL text). -/
def dollarFreeB (s : String) : Bool := s.data.all (fun c => c != '$')

/-- The first character, if any, is not a digit. -/
def headNotDigit : List Char → Bool
  | [] => true
  | c :: _ => !c.isDigit

/-- The first character, if any, is a space. -/
def spaceHeaded : List Char → Bool
  | [] => true
  | c :: _ => c == ' '

theorem dollarFreeL_of_B {s : String} (h : dollarFreeB s = true) :
    dollarFreeL s.data := by
  intro c hc
  have := List.all_eq_true.mp h c hc
  simpa using this

theorem dollarFreeL_append {a b : List Char} (ha : dollarFreeL a)
    (hb : dollarFreeL b) : dollarFreeL (a ++ b) := by
  intro c hc
  rcases List.mem_append.mp hc with h | h
  · exact ha c h
  · exact hb c h

theorem spaceHeaded_append {a b : List Char} (ha : spaceHeaded a = true)
    (hb : spaceHeaded b = true) : spaceHeaded (a ++ b) = true := by
  cases a with
  | nil => simpa using hb
  | cons c cs => exact ha

theorem headNotDigit_of_spaceHeaded {l : List Char} (h : spaceHeaded l = true) :
    headNotDigit l = true := by
  cases l with
  | nil => rfl
  | cons c cs =>
      have hc : c = ' ' := by simpa [spaceHeaded] using h
      simp [headNotDigit, hc]

theorem headNotDigit_append_of_ne {a : List Char} (b : List Char)
    (hne : a ≠ []) (ha : headNotDigit a = true) :
    headNotDigit (a ++ b) = true := by
  cases a with
  | nil => exact absurd rfl hne
  | cons c cs => exact ha

/-- Scanning through a `$`-free segment in the outside state is a no-op. -/
theorem phAux_skip {a : List Char} (ha : dollarFreeL a) (cs : List Char) :
    phAux none (a ++ cs) = phAux none cs := by
  induction a with
  | nil => rfl
  | cons c rest ih =>
      have hc : c ≠ '$' := ha c (List.mem_cons_self _ _)
      have hrest : dollarFreeL rest := fun x hx => ha x (List.mem_cons_of_mem _ hx)
      simp [phAux, hc, ih hrest]

/-- Flushing the pending run: when the next character is not a digit, the
collected run becomes a token and scanning resumes outside. -/
theorem phAux_flush {b : List Char} (hb : headNotDigit b = true) (t : List Char) :
    phAux (some t) b = t.reverse :: phAux none b := by
  cases b with
  | nil => rfl
  | cons c cs =>
      have hc : c.isDigit = false := by simpa [headNotDigit] using hb
      by_cases h : c = '$' <;> simp [phAux, hc, h]

/-- Digits extend the pending run. -/
theorem phAux_digits {d : List Char} (hd : ∀ c ∈ d, c.isDigit = true)
    (t cs : List Char) :
    phAux (some t) (d ++ cs) = phAux (some (d.reverse ++ t)) cs := by
  induction d generalizing t with
  | nil => rfl
  | cons c rest ih =>
      have hc : c.isDigit = true := hd c (List.mem_cons_self _ _)
      have hrest : ∀ x ∈ rest, x.isDigit = true :=
        fun x hx => hd x (List.mem_cons_of_mem _ hx)
      simp [phAux, hc, ih hrest]

/-- Every character of `Nat.repr n` is a decimal digit. -/
theorem repr_digits (n : Nat) : ∀ c ∈ (Nat.repr n).data, c.isDigit = true := by
  have core : ∀ (f m : Nat) (ds : List Char), (∀ c ∈ ds, c.isDigit = true) →
      ∀ c ∈ Nat.toDigitsCore 10 f m ds, c.isDigit = true := by
    intro f
    induction f with
    | zero => intro m ds h; simpa [Nat.toDigitsCore] using h
    | succ f ih =>
        intro m ds h c hc
        have hdigit : (Nat.digitChar (m % 10)).isDigit = true := by
          have hm : m % 10 < 10 := Nat.mod_lt _ (by norm_num)
          interval_cases h : m % 10 <;> decide
        rw [Nat.toDigitsCore] at hc
        by_cases hdiv : m / 10 = 0
        · simp only [hdiv, if_true] at hc
          rcases List.mem_cons.mp hc with h1 | h1
          · rw [h1]; exact hdigit
          · exact h c h1
        · simp only [hdiv, if_false] at hc
          refine ih (m / 10) (Nat.digitChar (m % 10) :: ds) ?_ c hc
          intro x hx
          rcases List.mem_cons.mp hx with h1 | h1
          · rw [h1]; exact hdigit
          · exact h x h1
  intro c hc
  exact core (n + 1) n [] (by simp) c hc

/-- A complete placeholder `$<n>` followed by a non-digit yields the token
`toString n`. -/
theorem phAux_placeholder (n : Nat) {rest : List Char}
    (hrest : headNotDigit rest = true) :
    phAux none (('$' :: (Nat.repr n).data) ++ rest)
      = (Nat.repr n).data :: phAux none rest := by
  have h1 : phAux none (('$' :: (Nat.repr n).data) ++ rest)
      = phAux (some []) ((Nat.repr n).data ++ rest) := by
    simp [phAux]
  rw [h1, phAux_digits (repr_digits n), phAux_flush hrest]
  simp

/-- `toString` on `Nat` is `Nat.repr`. -/
theorem natToString_eq_repr (n : Nat) : toString n = Nat.repr n := rfl

/-! ## Closed forms for the shared condition-building pattern -/

/-- Closed form of the clause fragments produced by `buildConditions` when
`base` values have already been pushed: only the keys and the running
count matter. -/
def condStrings (ks : List String) (base : Nat) : List String :=
  match ks with
  | [] => []
  | k :: rest => (k ++ " = $" ++ toString (base + 1)) :: condStrings rest (base + 1)

theorem buildConditions_fst (ps : List (String × String)) (vs : List Value) :
    (buildConditions vs ps).1 = vs ++ ps.map (fun kv => Value.str kv.2) := by
  induction ps generalizing vs with
  | nil => simp [buildConditions]
  | cons kv rest ih => simp [buildConditions, ih]

theorem buildConditions_snd (ps : List (String × String)) (vs : List Value) :
    (buildConditions vs ps).2 = condStrings (ps.map Prod.fst) vs.length := by
  induction ps generalizing vs with
  | nil => simp [buildConditions, condStrings]
  | cons kv rest ih =>
      simp [buildConditions, condStrings, ih]

theorem joinSep_dollarFree {sep : String} {l : List String}
    (hsep : dollarFreeL sep.data) (hl : ∀ x ∈ l, dollarFreeL x.data) :
    dollarFreeL (joinSep sep l).data := by
  induction l with
  | nil => intro c hc; simp [joinSep] at hc
  | cons x xs ih =>
      cases xs with
      | nil => simpa [joinSep] using hl x (by simp)
      | cons y ys =>
          have hx : dollarFreeL x.data := hl x (by simp)
          have hrest : dollarFreeL (joinSep sep (y :: ys)).data :=
            ih (fun z hz => hl z (List.mem_cons_of_mem _ hz))
          simp only [joinSep, String.data_append]
          exact dollarFreeL_append (dollarFreeL_append hx hsep) hrest

/-- One `<key> = $<n>` fragment scans to the single token `toString n`. -/
theorem phAux_condTok {k : List Char} (hk : dollarFreeL k) (n : Nat)
    {tail : List Char} (ht : headNotDigit tail = true) :
    phAux none ((k ++ (" = $").data ++ (toString n).data) ++ tail)
      = (toString n).data :: phAux none tail := by
  have hshape : (k ++ (" = $").data ++ (toString n).data) ++ tail
      = (k ++ [' ', '=', ' ']) ++ (('$' :: (Nat.repr n).data) ++ tail) := by
    show (k ++ [' ', '=', ' ', '$'] ++ (toString n).data) ++ tail = _
    simp [natToString_eq_repr]
  rw [hshape,
    phAux_skip (dollarFreeL_append hk (by intro c hc; fin_cases hc <;> decide)),
    phAux_placeholder n ht]
  simp [natToString_eq_repr]

/-- Scanning a separator-joined run of condition fragments yields the
consecutive tokens `toString (base+1) … toString (base+ks.length)`. -/
theorem condsScan {sep : String} (hsepD : dollarFreeL sep.data)
    (hsepH : headNotDigit sep.data = true) (hsepNE : sep.data ≠ []) :
    ∀ (ks : List String) (base : Nat) (rest : List Char),
      (∀ k ∈ ks, dollarFreeL k.data) → headNotDigit rest = true →
      phAux none ((joinSep sep (condStrings ks base)).data ++ rest)
        = (List.range' (base + 1) ks.length).map (fun i => (toString i).data)
            ++ phAux none rest := by
  intro ks
  induction ks with
  | nil => intro base rest _ _; simp [condStrings, joinSep]
  | cons k ks ih =>
      intro base rest hks hrest
      have hk : dollarFreeL k.data := hks k (by simp)
      have hks' : ∀ x ∈ ks, dollarFreeL x.data :=
        fun x hx => hks x (List.mem_cons_of_mem _ hx)
      cases ks with
      | nil =>
          have : (joinSep sep (condStrings [k] base)) = k ++ " = $" ++ toString (base + 1) := by
            simp [condStrings, joinSep]
          rw [this]
          have := phAux_condTok hk (base + 1) hrest
          simpa [List.range'] using this
      | cons k2 ks2 =>
          have hjoin : joinSep sep (condStrings (k :: k2 :: ks2) base)
              = (k ++ " = $" ++ toString (base + 1)) ++ sep
                ++ joinSep sep (condStrings (k2 :: ks2) (base + 1)) := by
            simp [condStrings, joinSep]
          rw [hjoin]
          have hdata : ((k ++ " = $" ++ toString (base + 1)) ++ sep
                ++ joinSep sep (condStrings (k2 :: ks2) (base + 1))).data ++ rest
              = (k.data ++ (" = $").data ++ (toString (base + 1)).data)
                ++ (sep.data
                  ++ ((joinSep sep (condStrings (k2 :: ks2) (base + 1))).data ++ rest)) := by
            simp
          have hsepTail : headNotDigit (sep.data
              ++ ((joinSep sep (condStrings (k2 :: ks2) (base + 1))).data ++ rest)) = true :=
            headNotDigit_append_of_ne _ hsepNE hsepH
          rw [hdata, phAux_condTok hk (base + 1) hsepTail, phAux_skip hsepD]
          rw [ih (base + 1) rest hks' hrest]
          simp [List.range'_succ]

/-- A `$`-free prefix followed by one placeholder scans to that token. -/
theorem phAux_prefixDollar (w : String) (n : Nat) {rest : List Char}
    (hw : dollarFreeL w.data) (hrest : headNotDigit rest = true) :
    phAux none ((w ++ "$" ++ toString n).data ++ rest)
      = (toString n).data :: phAux none rest := by
  have hshape : (w ++ "$" ++ toString n).data ++ rest
      = w.data ++ (('$' :: (Nat.repr n).data) ++ rest) := by
    simp [natToString_eq_repr]
  rw [hshape, phAux_skip hw, phAux_placeholder n hrest]
  simp [natToString_eq_repr]

/-- The placeholder-numbering specification of a builder outcome: on
success, the `$`-tokens of the SQL text are exactly `$1 … $n` in order,
where `n` is the number of bound values. -/
def phSpec (e : Except String Built) : Prop :=
  match e with
  | .ok b =>
      placeholders b.query
        = (List.range' 1 b.values.length).map (fun i => toString i)
  | .error _ => True

/-- All identifiers of the request that are interpolated into SQL text are
`$`-free (the builders interpolate the table name, column names, `where`
and `data` keys, `orderBy`, `orderDirection` and join fields verbatim, so
a `$` inside one could forge a placeholder). -/
def dollarFreeParams (p : QueryParams) : Bool :=
  dollarFreeB p.table &&
  (p.columns.getD []).all dollarFreeB &&
  (p.«where».getD []).all (fun kv => dollarFreeB kv.1) &&
  (p.data.getD []).all (fun kv => dollarFreeB kv.1) &&
  dollarFreeB (p.orderBy.getD "") &&
  dollarFreeB p.orderDirection &&
  p.joins.all (fun j => dollarFreeB j.table && dollarFreeB j.type && dollarFreeB j.«on»)

theorem selectColStr_dollarFree {p : QueryParams}
    (h : (p.columns.getD []).all dollarFreeB = true) :
    dollarFreeL (selectColStr p).data := by
  unfold selectColStr
  cases hc : p.columns with
  | none => decide
  | some cs =>
      by_cases hl : cs.length > 0
      · simp only [hl, if_true]
        refine joinSep_dollarFree (by decide) ?_
        intro x hx
        have := List.all_eq_true.mp (by simpa [hc] using h) x hx
        exact dollarFreeL_of_B this
      · simp only [hl, if_false]
        decide

theorem selectJoinStr_dollarFree {p : QueryParams}
    (h : p.joins.all
      (fun j => dollarFreeB j.table && dollarFreeB j.type && dollarFreeB j.«on») = true) :
    dollarFreeL (selectJoinStr p).data := by
  unfold selectJoinStr
  refine joinSep_dollarFree (by decide) ?_
  intro x hx
  rcases List.mem_map.mp hx with ⟨j, hj, rfl⟩
  have hj3 := List.all_eq_true.mp h j hj
  simp only [Bool.and_eq_true] at hj3
  obtain ⟨⟨h1, h2⟩, h3⟩ := hj3
  simp only [String.data_append, List.append_assoc]
  exact dollarFreeL_append (by decide)
    (dollarFreeL_append (dollarFreeL_of_B h2)
      (dollarFreeL_append (by decide)
        (dollarFreeL_append (dollarFreeL_of_B h1)
          (dollarFreeL_append (by decide) (dollarFreeL_of_B h3)))))

/-! ## String-level scan interface -/

/-- The raw token lists of a string (tokens as character lists). -/
def phS (s : String) : List (List Char) := phAux none s.data

theorem placeholders_eq_phS (s : String) :
    placeholders s = (phS s).map (fun t => String.mk t) := rfl

theorem phS_append_skip (a b : String) (ha : dollarFreeL a.data) :
    phS (a ++ b) = phS b := by
  show phAux none (a ++ b).data = phAux none b.data
  rw [String.data_append, phAux_skip ha]

theorem phS_empty : phS "" = [] := rfl

theorem phS_dollarTok (pre : String) (n : Nat) (t : String)
    (hpre : dollarFreeL pre.data) (ht : headNotDigit t.data = true) :
    phS ((pre ++ "$" ++ toString n) ++ t) = (toString n).data :: phS t := by
  show phAux none ((pre ++ "$" ++ toString n) ++ t).data = _
  rw [String.data_append]
  exact phAux_prefixDollar pre n hpre ht

theorem phS_condsJoin {sep : String} (hsepD : dollarFreeL sep.data)
    (hsepH : headNotDigit sep.data = true) (hsepNE : sep.data ≠ [])
    (ks : List String) (base : Nat) (t : String)
    (hks : ∀ k ∈ ks, dollarFreeL k.data) (ht : headNotDigit t.data = true) :
    phS (joinSep sep (condStrings ks base) ++ t)
      = (List.range' (base + 1) ks.length).map (fun i => (toString i).data)
          ++ phS t := by
  show phAux none (joinSep sep (condStrings ks base) ++ t).data = _
  rw [String.data_append]
  exact condsScan hsepD hsepH hsepNE ks base t.data hks ht

/-! ## Value-channel helpers -/

/-- The `where` values in mapping order, as bound values. -/
def whereVals (p : QueryParams) : List Value :=
  (p.«where».getD []).map (fun kv => Value.str kv.2)

/-- The `data` values in mapping order, as bound values. -/
def dataVals (p : QueryParams) : List Value :=
  (p.data.getD []).map (fun kv => Value.str kv.2)

/-- The numeric values pushed by the select builder for truthy
`limit`/`offset`. -/
def numVals (p : QueryParams) : List Value :=
  (if jsTruthyNum p.limit then [Value.num ((p.limit.getD none).getD 0)] else [])
    ++ (if jsTruthyNum p.offset then [Value.num ((p.offset.getD none).getD 0)] else [])

theorem selectWherePart_fst (p : QueryParams) :
    (selectWherePart p).1 = whereVals p := by
  unfold selectWherePart whereVals
  cases hw : p.«where» with
  | none => simp
  | some w =>
      by_cases hl : w.length > 0
      · simp [hl, buildConditions_fst]
      · have : w = [] := List.length_eq_zero.mp (by omega)
        simp [this]

theorem selectWherePart_space (p : QueryParams) :
    spaceHeaded (selectWherePart p).2.data = true := by
  unfold selectWherePart
  cases hw : p.«where» with
  | none => rfl
  | some w =>
      by_cases hl : w.length > 0
      · simp only [hl, if_true]
        show spaceHeaded ((" WHERE " ++ _ : String)).data = true
        rw [String.data_append]
        rfl
      · simp only [hl, if_false]
        rfl

theorem selectOrderPart_space (p : QueryParams) :
    spaceHeaded (selectOrderPart p).data = true := by
  unfold selectOrderPart
  by_cases h : jsTruthyStr p.orderBy = true
  · simp only [h, if_true]
    show spaceHeaded ((" ORDER BY " ++ _ ++ " " ++ _ : String)).data = true
    simp only [String.data_append, List.append_assoc]
    rfl
  · simp only [Bool.not_eq_true] at h
    simp only [h, if_false]
    rfl

theorem selectOrderPart_dollarFree {p : QueryParams}
    (hob : dollarFreeB (p.orderBy.getD "") = true)
    (hdir : dollarFreeB p.orderDirection = true) :
    dollarFreeL (selectOrderPart p).data := by
  unfold selectOrderPart
  by_cases h : jsTruthyStr p.orderBy = true
  · simp only [h, if_true, String.data_append, List.append_assoc]
    refine dollarFreeL_append (by decide) ?_
    refine dollarFreeL_append ?_ (dollarFreeL_append (by decide) (dollarFreeL_of_B hdir))
    cases hoB : p.orderBy with
    | none => decide
    | some s => exact dollarFreeL_of_B (by simpa [hoB] using hob)
  · simp only [Bool.not_eq_true] at h
    simp [h]
    decide

/-- Generic scan step: a literal ending in `$` followed by a rendered
number and a non-digit continuation yields one token. -/
theorem phS_tok (preD : String) (w : List Char) (hpre : preD.data = w ++ ['$'])
    (hw : dollarFreeL w) (n : Nat) (t : String)
    (ht : headNotDigit t.data = true) :
    phS (preD ++ (toString n ++ t)) = (toString n).data :: phS t := by
  show phAux none (preD ++ (toString n ++ t)).data = _
  rw [String.data_append, String.data_append, hpre, natToString_eq_repr,
    List.append_assoc, List.singleton_append, ← List.cons_append,
    phAux_skip hw, phAux_placeholder n ht]
  rfl

theorem selectWherePart_snd_some {p : QueryParams}
    {w : List (String × String)} (hw : p.«where» = some w) (hl : w.length > 0) :
    (selectWherePart p).2
      = " WHERE " ++ joinSep " AND " (condStrings (w.map Prod.fst) 0) := by
  simp [selectWherePart, hw, hl, buildConditions_snd]

theorem selectWherePart_snd_none {p : QueryParams}
    (hw : p.«where» = none ∨ p.«where» = some []) :
    (selectWherePart p).2 = "" := by
  rcases hw with hw | hw <;> simp [selectWherePart, hw]

/-- Map the raw tokens back to strings. -/
theorem map_mk_tokens (l : List Nat) :
    (l.map (fun i => (toString i).data)).map (fun t => String.mk t)
      = l.map (fun i => toString i) := by
  rw [List.map_map]; rfl



theorem mk_data (s : String) : String.mk s.data = s := rfl

theorem tokensRange1 (k : Nat) : List.range' 1 (k+1) = List.range' 1 k ++ [k+1] := by
  simpa [Nat.add_comm] using List.range'_1_concat 1 k

theorem tokensRange2 (k : Nat) :
    List.range' 1 (k+1+1) = List.range' 1 k ++ [k+1, k+2] := by
  rw [tokensRange1 (k+1), tokensRange1 k]
  simp

theorem phS_tok_end (preD : String) (w : List Char) (hpre : preD.data = w ++ ['$'])
    (hw : dollarFreeL w) (n : Nat) :
    phS (preD ++ toString n) = [(toString n).data] := by
  show phAux none (preD ++ toString n).data = _
  rw [String.data_append, hpre, natToString_eq_repr, List.append_assoc,
    List.singleton_append, phAux_skip hw]
  have := @phAux_placeholder n [] rfl
  simpa using this

/-- Scan through the constant-and-identifier prefix of a select query. -/
theorem phS_selectPrefix (p : QueryParams) (rest : String)
    (hcol : dollarFreeL (selectColStr p).data)
    (hjoin : dollarFreeL (selectJoinStr p).data)
    (htabL : dollarFreeL p.table.data) :
    phS ("SELECT " ++ (selectColStr p ++ (" FROM " ++ (p.table ++ (selectJoinStr p ++ rest)))))
      = phS rest := by
  rw [phS_append_skip "SELECT " _ (by decide),
    phS_append_skip (selectColStr p) _ hcol,
    phS_append_skip " FROM " _ (by decide),
    phS_append_skip p.table _ htabL,
    phS_append_skip (selectJoinStr p) _ hjoin]

theorem phSpec_buildSelect (p : QueryParams) (h : dollarFreeParams p = true) :
    phSpec (buildSelectQuery p) := by
  simp only [dollarFreeParams, Bool.and_eq_true] at h
  obtain ⟨⟨⟨⟨⟨⟨htab, hcols⟩, hwk⟩, hdk⟩, hob⟩, hdir⟩, hjoins⟩ := h
  have hcol : dollarFreeL (selectColStr p).data := selectColStr_dollarFree hcols
  have hjoin : dollarFreeL (selectJoinStr p).data := selectJoinStr_dollarFree hjoins
  have hord : dollarFreeL (selectOrderPart p).data := selectOrderPart_dollarFree hob hdir
  have htabL : dollarFreeL p.table.data := dollarFreeL_of_B htab
  simp only [phSpec, buildSelectQuery]
  rcases hwc : p.«where» with _ | w
  case none =>
    have hW : (selectWherePart p).2 = "" := selectWherePart_snd_none (Or.inl hwc)
    have hk : (selectWherePart p).1.length = 0 := by
      simp [selectWherePart_fst, whereVals, hwc]
    by_cases hL : jsTruthyNum p.limit = true
    <;> by_cases hO : jsTruthyNum p.offset = true
    · simp only [hL, hO, if_true, List.length_append, List.length_cons,
        List.length_nil, Nat.zero_add]
      rw [placeholders_eq_phS, hW]
      simp only [String.append_assoc]
      have htail1 : headNotDigit (" OFFSET $"
          ++ toString ((selectWherePart p).1.length + 1 + 1)).data = true := by
        rw [String.data_append]; rfl
      rw [phS_selectPrefix p _ hcol hjoin htabL,
        phS_append_skip "" _ (by decide),
        phS_append_skip (selectOrderPart p) _ hord,
        phS_tok " LIMIT $" (" LIMIT ").data rfl (by decide) _ _ htail1,
        phS_tok_end " OFFSET $" (" OFFSET ").data rfl (by decide) _]
      rw [hk, tokensRange2 0]
      simp [mk_data]
    · simp only [Bool.not_eq_true] at hO
      simp only [hL, hO, Bool.false_eq_true, if_true, if_false, List.length_append,
        List.length_cons, List.length_nil, Nat.zero_add]
      rw [placeholders_eq_phS, hW]
      simp only [String.append_assoc]
      rw [phS_selectPrefix p _ hcol hjoin htabL,
        phS_append_skip "" _ (by decide),
        phS_append_skip (selectOrderPart p) _ hord,
        phS_tok " LIMIT $" (" LIMIT ").data rfl (by decide) _ "" rfl]
      rw [hk, tokensRange1 0]
      simp [mk_data, phS_empty]
    · simp only [Bool.not_eq_true] at hL
      simp only [hL, hO, Bool.false_eq_true, if_true, if_false, List.length_append,
        List.length_cons, List.length_nil, Nat.zero_add]
      rw [placeholders_eq_phS, hW]
      simp only [String.append_assoc]
      rw [phS_selectPrefix p _ hcol hjoin htabL,
        phS_append_skip "" _ (by decide),
        phS_append_skip (selectOrderPart p) _ hord,
        phS_append_skip "" _ (by decide),
        phS_tok_end " OFFSET $" (" OFFSET ").data rfl (by decide) _]
      rw [hk, tokensRange1 0]
      simp [mk_data]
    · simp only [Bool.not_eq_true] at hL hO
      simp only [hL, hO, Bool.false_eq_true, if_true, if_false, List.length_append,
        List.length_cons, List.length_nil, Nat.zero_add]
      rw [placeholders_eq_phS, hW]
      simp only [String.append_assoc]
      rw [phS_selectPrefix p _ hcol hjoin htabL,
        phS_append_skip "" _ (by decide),
        phS_append_skip (selectOrderPart p) _ hord,
        phS_append_skip "" _ (by decide)]
      rw [hk]
      simp [mk_data, phS_empty]
  case some =>
    by_cases hwl : w.length > 0
    case neg =>
      have hwnil : w = [] := List.length_eq_zero.mp (by omega)
      subst hwnil
      have hW : (selectWherePart p).2 = "" := selectWherePart_snd_none (Or.inr hwc)
      have hk : (selectWherePart p).1.length = 0 := by
        simp [selectWherePart_fst, whereVals, hwc]
      by_cases hL : jsTruthyNum p.limit = true
      <;> by_cases hO : jsTruthyNum p.offset = true
      · simp only [hL, hO, if_true, List.length_append, List.length_cons,
          List.length_nil, Nat.zero_add]
        rw [placeholders_eq_phS, hW]
        simp only [String.append_assoc]
        have htail1 : headNotDigit (" OFFSET $"
            ++ toString ((selectWherePart p).1.length + 1 + 1)).data = true := by
          rw [String.data_append]; rfl
        rw [phS_selectPrefix p _ hcol hjoin htabL,
          phS_append_skip "" _ (by decide),
          phS_append_skip (selectOrderPart p) _ hord,
          phS_tok " LIMIT $" (" LIMIT ").data rfl (by decide) _ _ htail1,
          phS_tok_end " OFFSET $" (" OFFSET ").data rfl (by decide) _]
        rw [hk, tokensRange2 0]
        simp [mk_data]
      · simp only [Bool.not_eq_true] at hO
        simp only [hL, hO, Bool.false_eq_true, if_true, if_false, List.length_append,
          List.length_cons, List.length_nil, Nat.zero_add]
        rw [placeholders_eq_phS, hW]
        simp only [String.append_assoc]
        rw [phS_selectPrefix p _ hcol hjoin htabL,
          phS_append_skip "" _ (by decide),
          phS_append_skip (selectOrderPart p) _ hord,
          phS_tok " LIMIT $" (" LIMIT ").data rfl (by decide) _ "" rfl]
        rw [hk, tokensRange1 0]
        simp [mk_data, phS_empty]
      · simp only [Bool.not_eq_true] at hL
        simp only [hL, hO, Bool.false_eq_true, if_true, if_false, List.length_append,
          List.length_cons, List.length_nil, Nat.zero_add]
        rw [placeholders_eq_phS, hW]
        simp only [String.append_assoc]
        rw [phS_selectPrefix p _ hcol hjoin htabL,
          phS_append_skip "" _ (by decide),
          phS_append_skip (selectOrderPart p) _ hord,
          phS_append_skip "" _ (by decide),
          phS_tok_end " OFFSET $" (" OFFSET ").data rfl (by decide) _]
        rw [hk, tokensRange1 0]
        simp [mk_data]
      · simp only [Bool.not_eq_true] at hL hO
        simp only [hL, hO, Bool.false_eq_true, if_true, if_false, List.length_append,
          List.length_cons, List.length_nil, Nat.zero_add]
        rw [placeholders_eq_phS, hW]
        simp only [String.append_assoc]
        rw [phS_selectPrefix p _ hcol hjoin htabL,
          phS_append_skip "" _ (by decide),
          phS_append_skip (selectOrderPart p) _ hord,
          phS_append_skip "" _ (by decide)]
        rw [hk]
        simp [mk_data, phS_empty]
    case pos =>
      have hk : (selectWherePart p).1.length = w.length := by
        simp [selectWherePart_fst, whereVals, hwc]
      have hkeys : ∀ k ∈ w.map Prod.fst, dollarFreeL k.data := by
        intro k hkm
        rcases List.mem_map.mp hkm with ⟨kv, hkv, rfl⟩
        have hww : ∀ (a b : String), (a, b) ∈ w → dollarFreeB a = true := by
          simpa [hwc] using hwk
        exact dollarFreeL_of_B (hww kv.1 kv.2 hkv)
      by_cases hL : jsTruthyNum p.limit = true
      <;> by_cases hO : jsTruthyNum p.offset = true
      · simp only [hL, hO, if_true, List.length_append, List.length_cons,
          List.length_nil, Nat.zero_add]
        rw [placeholders_eq_phS, selectWherePart_snd_some hwc hwl]
        simp only [String.append_assoc]
        have htail1 : headNotDigit (" OFFSET $"
            ++ toString ((selectWherePart p).1.length + 1 + 1)).data = true := by
          rw [String.data_append]; rfl
        have htail0 : headNotDigit (selectOrderPart p ++ (" LIMIT $"
            ++ (toString ((selectWherePart p).1.length + 1) ++ (" OFFSET $"
              ++ toString ((selectWherePart p).1.length + 1 + 1))))).data = true := by
          rw [String.data_append]
          refine headNotDigit_of_spaceHeaded (spaceHeaded_append (selectOrderPart_space p) ?_)
          rw [String.data_append]; rfl
        rw [phS_selectPrefix p _ hcol hjoin htabL,
          phS_append_skip " WHERE " _ (by decide),
          phS_condsJoin (by decide) (by rfl) (by decide) (w.map Prod.fst) 0 _ hkeys htail0,
          phS_append_skip (selectOrderPart p) _ hord,
          phS_tok " LIMIT $" (" LIMIT ").data rfl (by decide) _ _ htail1,
          phS_tok_end " OFFSET $" (" OFFSET ").data rfl (by decide) _]
        simp only [List.length_map, Nat.zero_add]
        rw [hk, tokensRange2 w.length]
        simp [mk_data, List.map_append, List.map_map, Function.comp]
      · simp only [Bool.not_eq_true] at hO
        simp only [hL, hO, Bool.false_eq_true, if_true, if_false, List.length_append,
          List.length_cons, List.length_nil, Nat.zero_add]
        rw [placeholders_eq_phS, selectWherePart_snd_some hwc hwl]
        simp only [String.append_assoc]
        have htail0 : headNotDigit (selectOrderPart p ++ (" LIMIT $"
            ++ (toString ((selectWherePart p).1.length + 1) ++ ""))).data = true := by
          rw [String.data_append]
          refine headNotDigit_of_spaceHeaded (spaceHeaded_append (selectOrderPart_space p) ?_)
          rw [String.data_append]; rfl
        rw [phS_selectPrefix p _ hcol hjoin htabL,
          phS_append_skip " WHERE " _ (by decide),
          phS_condsJoin (by decide) (by rfl) (by decide) (w.map Prod.fst) 0 _ hkeys htail0,
          phS_append_skip (selectOrderPart p) _ hord,
          phS_tok " LIMIT $" (" LIMIT ").data rfl (by decide) _ "" rfl]
        simp only [List.length_map, Nat.zero_add, phS_empty]
        rw [hk, tokensRange1 w.length]
        simp [mk_data, List.map_append, List.map_map, Function.comp]
      · simp only [Bool.not_eq_true] at hL
        simp only [hL, hO, Bool.false_eq_true, if_true, if_false, List.length_append,
          List.length_cons, List.length_nil, Nat.zero_add]
        rw [placeholders_eq_phS, selectWherePart_snd_some hwc hwl]
        simp only [String.append_assoc]
        have htail0 : headNotDigit (selectOrderPart p ++ ("" ++ (" OFFSET $"
            ++ toString ((selectWherePart p).1.length + 1)))).data = true := by
          rw [String.data_append]
          refine headNotDigit_of_spaceHeaded (spaceHeaded_append (selectOrderPart_space p) ?_)
          rw [String.data_append, String.data_append]; rfl
        rw [phS_selectPrefix p _ hcol hjoin htabL,
          phS_append_skip " WHERE " _ (by decide),
          phS_condsJoin (by decide) (by rfl) (by decide) (w.map Prod.fst) 0 _ hkeys htail0,
          phS_append_skip (selectOrderPart p) _ hord,
          phS_append_skip "" _ (by decide),
          phS_tok_end " OFFSET $" (" OFFSET ").data rfl (by decide) _]
        simp only [List.length_map, Nat.zero_add]
        rw [hk, tokensRange1 w.length]
        simp [mk_data, List.map_append, List.map_map, Function.comp]
      · simp only [Bool.not_eq_true] at hL hO
        simp only [hL, hO, Bool.false_eq_true, if_true, if_false, List.length_append,
          List.length_cons, List.length_nil, Nat.zero_add]
        rw [placeholders_eq_phS, selectWherePart_snd_some hwc hwl]
        simp only [String.append_assoc]
        have htail0 : headNotDigit (selectOrderPart p ++ ("" ++ "")).data = true := by
          rw [String.data_append]
          refine headNotDigit_of_spaceHeaded (spaceHeaded_append (selectOrderPart_space p) ?_)
          rw [String.data_append]; rfl
        rw [phS_selectPrefix p _ hcol hjoin htabL,
          phS_append_skip " WHERE " _ (by decide),
          phS_condsJoin (by decide) (by rfl) (by decide) (w.map Prod.fst) 0 _ hkeys htail0,
          phS_append_skip (selectOrderPart p) _ hord,
          phS_append_skip "" _ (by decide)]
        simp only [List.length_map, Nat.zero_add, phS_empty]
        rw [hk]
        simp [mk_data, List.map_map, Function.comp]





theorem phS_dollarFree (s : String) (hs : dollarFreeL s.data) : phS s = [] := by
  show phAux none s.data = []
  have := phAux_skip hs []
  simpa using this

theorem rangeMapSucc (n : Nat) :
    (List.range n).map (fun i => i + 1) = List.range' 1 n := by
  rw [List.range'_eq_map_range 1 n]
  exact List.map_congr_left (fun i _ => Nat.add_comm i 1)

theorem insertPh_eq (n : Nat) :
    (List.range n).map (fun index => "$" ++ toString (index + 1))
      = (List.range' 1 n).map (fun i => "$" ++ toString i) := by
  rw [← rangeMapSucc, List.map_map]
  rfl

theorem phListScan (l : List Nat) (t : String) (ht : headNotDigit t.data = true) :
    phS (joinSep ", " (l.map (fun i => "$" ++ toString i)) ++ t)
      = l.map (fun i => (toString i).data) ++ phS t := by
  induction l with
  | nil =>
      simp only [List.map_nil, joinSep]
      rw [phS_append_skip "" _ (by decide)]
      simp
  | cons i rest ih =>
      cases rest with
      | nil =>
          simp only [List.map_cons, List.map_nil, joinSep]
          rw [String.append_assoc, phS_tok "$" [] rfl (by decide) i t ht]
          simp
      | cons j rest2 =>
          simp only [List.map_cons, joinSep]
          have hshape : (("$" ++ toString i) ++ ", "
                ++ (joinSep ", " ((fun i => "$" ++ toString i) j ::
                    rest2.map (fun i => "$" ++ toString i)))) ++ t
              = "$" ++ (toString i ++ (", "
                ++ (joinSep ", " ((fun i => "$" ++ toString i) j ::
                    rest2.map (fun i => "$" ++ toString i)) ++ t))) := by
            simp [String.append_assoc]
          rw [hshape, phS_tok "$" [] rfl (by decide) i _ (by rw [String.data_append]; rfl),
            phS_append_skip ", " _ (by decide)]
          have := ih
          simp only [List.map_cons] at this
          rw [this]
          simp



theorem phSpec_buildInsert (p : QueryParams) (h : dollarFreeParams p = true) :
    phSpec (buildInsertQuery p) := by
  simp only [dollarFreeParams, Bool.and_eq_true] at h
  obtain ⟨⟨⟨⟨⟨⟨htab, hcols⟩, hwk⟩, hdk⟩, hob⟩, hdir⟩, hjoins⟩ := h
  have htabL : dollarFreeL p.table.data := dollarFreeL_of_B htab
  unfold buildInsertQuery
  rcases hd : p.data with _ | d
  · simp [phSpec]
  · by_cases hdl : d.length = 0
    · simp [hdl, phSpec]
    · simp only [hdl, if_false, phSpec, List.length_map]
      have hkeysD : dollarFreeL (joinSep ", " (List.map (fun kv => kv.1) d)).data := by
        refine joinSep_dollarFree (by decide) ?_
        intro x hx
        rcases List.mem_map.mp hx with ⟨kv, hkv, rfl⟩
        have hdd : ∀ (a b : String), (a, b) ∈ d → dollarFreeB a = true := by
          simpa [hd] using hdk
        exact dollarFreeL_of_B (hdd kv.1 kv.2 hkv)
      rw [placeholders_eq_phS]
      simp only [String.append_assoc]
      rw [phS_append_skip "INSERT INTO " _ (by decide),
        phS_append_skip p.table _ htabL,
        phS_append_skip " (" _ (by decide),
        phS_append_skip (joinSep ", " (List.map (fun kv => kv.1) d)) _ hkeysD,
        phS_append_skip ") VALUES (" _ (by decide),
        insertPh_eq d.length,
        phListScan (List.range' 1 d.length) ") RETURNING *" (by rfl),
        phS_dollarFree ") RETURNING *" (by decide)]
      simp [mk_data, List.map_map, Function.comp]


theorem phSpec_buildUpdate (p : QueryParams) (h : dollarFreeParams p = true) :
    phSpec (buildUpdateQuery p) := by
  simp only [dollarFreeParams, Bool.and_eq_true] at h
  obtain ⟨⟨⟨⟨⟨⟨htab, hcols⟩, hwk⟩, hdk⟩, hob⟩, hdir⟩, hjoins⟩ := h
  have htabL : dollarFreeL p.table.data := dollarFreeL_of_B htab
  unfold buildUpdateQuery
  rcases hd : p.data with _ | d
  · simp [phSpec]
  · by_cases hdl : d.length = 0
    · simp [hdl, phSpec]
    · rcases hw : p.«where» with _ | w
      · simp [hdl, phSpec]
      · by_cases hwl : w.length = 0
        · simp [hdl, hwl, phSpec]
        · simp only [hdl, hwl, if_false, phSpec]
          have hdkeys : ∀ k ∈ d.map Prod.fst, dollarFreeL k.data := by
            intro k hkm
            rcases List.mem_map.mp hkm with ⟨kv, hkv, rfl⟩
            have hdd : ∀ (a b : String), (a, b) ∈ d → dollarFreeB a = true := by
              simpa [hd] using hdk
            exact dollarFreeL_of_B (hdd kv.1 kv.2 hkv)
          have hwkeys : ∀ k ∈ w.map Prod.fst, dollarFreeL k.data := by
            intro k hkm
            rcases List.mem_map.mp hkm with ⟨kv, hkv, rfl⟩
            have hww : ∀ (a b : String), (a, b) ∈ w → dollarFreeB a = true := by
              simpa [hw] using hwk
            exact dollarFreeL_of_B (hww kv.1 kv.2 hkv)
          rw [placeholders_eq_phS]
          simp only [buildConditions_fst, buildConditions_snd, List.length_append,
            List.length_map, List.length_nil, Nat.zero_add, List.nil_append]
          simp only [String.append_assoc]
          have htail0 : headNotDigit (" WHERE "
              ++ (joinSep " AND " (condStrings (w.map Prod.fst) d.length)
                ++ " RETURNING *")).data = true := by
            rw [String.data_append]; rfl
          rw [phS_append_skip "UPDATE " _ (by decide),
            phS_append_skip p.table _ htabL,
            phS_append_skip " SET " _ (by decide),
            phS_condsJoin (by decide) (by rfl) (by decide) (d.map Prod.fst) 0 _ hdkeys htail0,
            phS_append_skip " WHERE " _ (by decide),
            phS_condsJoin (by decide) (by rfl) (by decide) (w.map Prod.fst) d.length _ hwkeys (by rfl),
            phS_dollarFree " RETURNING *" (by decide)]
          simp only [List.length_map, Nat.zero_add, List.append_nil]
          rw [← List.map_append]
          have hsplit : List.range' 1 d.length ++ List.range' (d.length + 1) w.length
              = List.range' 1 (d.length + w.length) := by
            rw [Nat.add_comm d.length 1, List.range'_append_1]
            rw [Nat.add_comm w.length d.length]
          rw [hsplit]
          simp [mk_data, List.map_map, Function.comp]


theorem phSpec_buildDelete (p : QueryParams) (h : dollarFreeParams p = true) :
    phSpec (buildDeleteQuery p) := by
  simp only [dollarFreeParams, Bool.and_eq_true] at h
  obtain ⟨⟨⟨⟨⟨⟨htab, hcols⟩, hwk⟩, hdk⟩, hob⟩, hdir⟩, hjoins⟩ := h
  have htabL : dollarFreeL p.table.data := dollarFreeL_of_B htab
  unfold buildDeleteQuery
  rcases hw : p.«where» with _ | w
  · simp [phSpec]
  · by_cases hwl : w.length = 0
    · simp [hwl, phSpec]
    · simp only [hwl, if_false, phSpec]
      have hwkeys : ∀ k ∈ w.map Prod.fst, dollarFreeL k.data := by
        intro k hkm
        rcases List.mem_map.mp hkm with ⟨kv, hkv, rfl⟩
        have hww : ∀ (a b : String), (a, b) ∈ w → dollarFreeB a = true := by
          simpa [hw] using hwk
        exact dollarFreeL_of_B (hww kv.1 kv.2 hkv)
      rw [placeholders_eq_phS]
      simp only [buildConditions_fst, buildConditions_snd, List.length_map,
        List.length_nil, List.nil_append]
      simp only [String.append_assoc]
      rw [phS_append_skip "DELETE FROM " _ (by decide),
        phS_append_skip p.table _ htabL,
        phS_append_skip " WHERE " _ (by decide),
        phS_condsJoin (by decide) (by rfl) (by decide) (w.map Prod.fst) 0 _ hwkeys (by rfl),
        phS_dollarFree " RETURNING *" (by decide)]
      simp only [List.length_map, Nat.zero_add, List.append_nil]
      simp [mk_data, List.map_map, Function.comp]


/-- A falsy `limit` slot (absent, `0`, or `NaN`) is interchangeable with an
absent one in the select builder. -/
theorem buildSelect_limit_falsy (p : QueryParams)
    (hv : jsTruthyNum p.limit = false) :
    buildSelectQuery p = buildSelectQuery { p with limit := none } := by
  unfold buildSelectQuery
  rw [hv]
  rfl

/-- A falsy `offset` slot is interchangeable with an absent one. -/
theorem buildSelect_offset_falsy (p : QueryParams)
    (hv : jsTruthyNum p.offset = false) :
    buildSelectQuery p = buildSelectQuery { p with offset := none } := by
  unfold buildSelectQuery
  rw [hv]
  rfl

/-- A request with absent `data`, used to witness empty-data rejection. -/
def emptyDataReq : QueryParams :=
  { table := "products", operation := "insert", columns := none,
    «where» := none, orderBy := none, orderDirection := "ASC",
    limit := none, offset := none, data := none, joins := [] }


/-! ## Claim theorems -/

theorem execPhase_failure {α : Type} (exec : String → List Value → Except String α)
    (opn tbl : String) (qd : Except String Built)
    (h : (execPhase exec opn tbl qd).success = false) :
    (execPhase exec opn tbl qd).error.isSome = true ∧
    (execPhase exec opn tbl qd).operation = none ∧
    (execPhase exec opn tbl qd).table = none ∧
    (execPhase exec opn tbl qd).data = none := by
  rcases qd with e | b
  · simp [execPhase, failureEnvelope]
  · rcases hx : exec b.query b.values with e | rows
    · simp only [execPhase]
      rw [hx]
      simp [failureEnvelope]
    · simp only [execPhase] at h
      rw [hx] at h
      simp at h

/-- C6: every failing query invocation (parse failure, builder validation
failure, unsupported operation, or database execution error) yields a
`QueryResult` with `success = false`, a populated error message, and
`operation`/`table` (and `data`) cleared to `none`.  `generalQuery` is a
total Lean function, so no exception crosses the request boundary. -/
theorem C6_failure_envelope {α : Type} (entries : List (String × String))
    (exec : String → List Value → Except String α)
    (h : (generalQuery entries exec).success = false) :
    (generalQuery entries exec).error.isSome = true ∧
    (generalQuery entries exec).operation = none ∧
    (generalQuery entries exec).table = none ∧
    (generalQuery entries exec).data = none := by
  unfold generalQuery at *
  rcases hp : parseUrlParams entries with e | params
  · simp [failureEnvelope]
  · rw [hp] at h
    exact execPhase_failure exec params.operation params.table (dispatchBuilder params) h

theorem C6_failure_envelope_witness :
    (generalQuery ([("operation","select")]) (fun _ _ => .ok ([] : List Unit))).success = false ∧
    ((generalQuery ([("operation","select")]) (fun _ _ => .ok ([] : List Unit))).error.isSome = true ∧
     (generalQuery ([("operation","select")]) (fun _ _ => .ok ([] : List Unit))).operation = none ∧
     (generalQuery ([("operation","select")]) (fun _ _ => .ok ([] : List Unit))).table = none ∧
     (generalQuery ([("operation","select")]) (fun _ _ => .ok ([] : List Unit))).data = none) :=
  ⟨by decide, C6_failure_envelope [("operation","select")] (fun _ _ => .ok []) (by decide)⟩

/-- C8: the insert and update builders reject a request whose `data`
mapping is empty (absent or empty object) and produce no SQL. -/
theorem C8_empty_data_rejected (p : QueryParams)
    (h : p.data = none ∨ p.data = some []) :
    (buildInsertQuery p).isOk = false ∧ (buildUpdateQuery p).isOk = false := by
  rcases h with h | h <;> simp [buildInsertQuery, buildUpdateQuery, h, Except.isOk, Except.toBool]

theorem C8_empty_data_rejected_witness :
    (emptyDataReq.data = none ∨ emptyDataReq.data = some []) ∧
    ((buildInsertQuery emptyDataReq).isOk = false ∧
     (buildUpdateQuery emptyDataReq).isOk = false) :=
  ⟨Or.inl rfl, C8_empty_data_rejected emptyDataReq (Or.inl rfl)⟩

/-- C3: an update or delete request whose `where` mapping is empty is
rejected by its builder (no SQL produced, regardless of `data`), and the
request never reaches the executor: `generalQuery` returns the same
failure envelope for any two executors. -/
theorem C3_unsafe_mutation_rejected {α : Type} (entries : List (String × String))
    (p : QueryParams) (exec₁ exec₂ : String → List Value → Except String α)
    (hp : parseUrlParams entries = .ok p)
    (hop : p.operation = "update" ∨ p.operation = "delete")
    (hwe : p.«where» = none ∨ p.«where» = some []) :
    (buildUpdateQuery p).isOk = false ∧ (buildDeleteQuery p).isOk = false ∧
    generalQuery entries exec₁ = generalQuery entries exec₂ ∧
    (generalQuery entries exec₁).success = false := by
  have hD : (buildDeleteQuery p).isOk = false := by
    rcases hwe with h | h <;> simp [buildDeleteQuery, h, Except.isOk, Except.toBool]
  have hU : (buildUpdateQuery p).isOk = false := by
    rcases hd : p.data with _ | d
    · simp [buildUpdateQuery, hd, Except.isOk, Except.toBool]
    · by_cases hdl : d.length = 0
      · simp [buildUpdateQuery, hd, hdl, Except.isOk, Except.toBool]
      · rcases hwe with h | h <;> simp [buildUpdateQuery, hd, hdl, h, Except.isOk, Except.toBool]
  have hqe : ∃ e, dispatchBuilder p = .error e := by
    unfold dispatchBuilder
    rcases hop with hop | hop <;> rw [hop]
    · rcases hq : buildUpdateQuery p with e | b
      · exact ⟨e, rfl⟩
      · rw [hq] at hU; simp [Except.isOk, Except.toBool] at hU
    · rcases hq : buildDeleteQuery p with e | b
      · exact ⟨e, rfl⟩
      · rw [hq] at hD; simp [Except.isOk, Except.toBool] at hD
  obtain ⟨e, he⟩ := hqe
  refine ⟨hU, hD, ?_, ?_⟩
  · unfold generalQuery
    rw [hp]
    show execPhase exec₁ p.operation p.table (dispatchBuilder p)
        = execPhase exec₂ p.operation p.table (dispatchBuilder p)
    rw [he]
    rfl
  · unfold generalQuery
    rw [hp]
    show (execPhase exec₁ p.operation p.table (dispatchBuilder p)).success = false
    rw [he]
    rfl

/-- C10: a parsed `limit` equal to `0` behaves exactly like an absent
`limit` in the select builder (no LIMIT clause, no bound value), and the
same holds for `offset` and the OFFSET clause: JS `if (limit)` treats `0`
as falsy. -/
theorem C10_zero_limit_offset_as_absent (p : QueryParams) :
    buildSelectQuery { p with limit := some (some 0) }
        = buildSelectQuery { p with limit := none }
    ∧ buildSelectQuery { p with offset := some (some 0) }
        = buildSelectQuery { p with offset := none } := by
  constructor
  · exact buildSelect_limit_falsy { p with limit := some (some 0) } rfl
  · exact buildSelect_offset_falsy { p with offset := some (some 0) } rfl



/-- Concrete delete request without `where`, for the C3 witness. -/
def c3Entries : List (String × String) := [("table","products"),("operation","delete")]

/-- The parse of `c3Entries`. -/
def c3Params : QueryParams :=
  { table := "products", operation := "delete", columns := none,
    «where» := none, orderBy := none, orderDirection := "ASC",
    limit := none, offset := none, data := none, joins := [] }

theorem C3_unsafe_mutation_rejected_witness :
    (parseUrlParams c3Entries = .ok c3Params ∧
     (c3Params.operation = "update" ∨ c3Params.operation = "delete") ∧
     (c3Params.«where» = none ∨ c3Params.«where» = some [])) ∧
    ((buildUpdateQuery c3Params).isOk = false ∧
     (buildDeleteQuery c3Params).isOk = false ∧
     generalQuery c3Entries (fun _ _ => Except.ok ([] : List Unit))
       = generalQuery c3Entries (fun _ _ => Except.error "connection refused") ∧
     (generalQuery c3Entries (fun _ _ => Except.ok ([] : List Unit))).success = false) :=
  ⟨⟨by decide, Or.inr rfl, Or.inl rfl⟩,
   C3_unsafe_mutation_rejected c3Entries c3Params
     (fun _ _ => Except.ok ([] : List Unit))
     (fun _ _ => Except.error "connection refused")
     (by decide) (Or.inr rfl) (Or.inl rfl)⟩

/-- The C9 end-to-end parameter set. -/
def c9Entries : List (String × String) :=
  [("operation","select"),("table","products"),("where_status","active"),
   ("orderBy","created_at"),("orderDirection","DESC"),("limit","10")]

/-- The parse of `c9Entries`. -/
def c9Params : QueryParams :=
  { table := "products", operation := "select", columns := none,
    «where» := some [("status","active")], orderBy := some "created_at",
    orderDirection := "DESC", limit := some (some 10), offset := none,
    data := none, joins := [] }

/-- C9: the end-to-end scenario `operation=select, table=products,
where_status=active, orderBy=created_at, orderDirection=DESC, limit=10`
parses and builds exactly
`SELECT * FROM products WHERE status = $1 ORDER BY created_at DESC LIMIT $2`
with bound values `["active", 10]`. -/
theorem C9_end_to_end :
    parseUrlParams c9Entries = .ok c9Params ∧
    buildSelectQuery c9Params = .ok
      { query := "SELECT * FROM products WHERE status = $1 ORDER BY created_at DESC LIMIT $2"
        values := [Value.str "active", Value.num 10] } := by
  decide

/-- The C5 counterexample parameter set: a non-numeric `limit`. -/
def c5Entries : List (String × String) :=
  [("table","products"),("operation","select"),("limit","abc")]

/-- The parse of `c5Entries`: `parseInt("abc")` is NaN (`some none`). -/
def c5Params : QueryParams :=
  { table := "products", operation := "select", columns := none,
    «where» := none, orderBy := none, orderDirection := "ASC",
    limit := some none, offset := none, data := none, joins := [] }

/-- C5 counterexample: with `limit=abc` the parser does **not** reject the
request — parsing succeeds with `limit = NaN`, the select builder silently
drops the LIMIT clause, and the whole request succeeds end to end. -/
theorem C5_counterexample_not_rejected :
    parseUrlParams c5Entries = .ok c5Params ∧
    c5Params.limit = some none ∧
    buildSelectQuery c5Params = .ok { query := "SELECT * FROM products", values := [] } ∧
    (generalQuery c5Entries (fun _ _ => Except.ok ([] : List Unit))).success = true := by
  decide

/-- Outcome predicate for the amended C5: parsing succeeded, the limit slot
is NaN, and the builder emits the same SQL as if `limit` were absent. -/
def limitNaNDropped (e : Except String QueryParams) : Prop :=
  match e with
  | .ok p => p.limit = some none
      ∧ buildSelectQuery p = buildSelectQuery { p with limit := none }
  | .error _ => False

/-- Outcome predicate for the amended C5, `offset` side. -/
def offsetNaNDropped (e : Except String QueryParams) : Prop :=
  match e with
  | .ok p => p.offset = some none
      ∧ buildSelectQuery p = buildSelectQuery { p with offset := none }
  | .error _ => False

/-- C5 (amended): when `limit` (resp. `offset`) is a non-empty string on
which `parseInt` yields NaN, and `table`/`operation` are present, the
parser accepts the request with a NaN limit slot and the select builder
silently drops the LIMIT (resp. OFFSET) clause; no validation error is
raised. -/
theorem C5_amended_nan_limit_dropped (entries : List (String × String)) (s t : String)
    (htab : jsTruthyStr (getParam entries "table") = true)
    (hop : jsTruthyStr (getParam entries "operation") = true) :
    (getParam entries "limit" = some s → s ≠ "" → parseIntJS s = none →
      limitNaNDropped (parseUrlParams entries)) ∧
    (getParam entries "offset" = some t → t ≠ "" → parseIntJS t = none →
      offsetNaNDropped (parseUrlParams entries)) := by
  have hcond : ¬¬ (jsTruthyStr (getParam entries "table") = true
      ∧ jsTruthyStr (getParam entries "operation") = true) := by
    simp [htab, hop]
  constructor
  · intro hs hne hnan
    unfold parseUrlParams
    rw [if_neg (by simpa using hcond)]
    have hlf : limitField (getParam entries "limit") = some none := by
      rw [hs]; simp [limitField, hne, hnan]
    constructor
    · exact hlf
    · exact buildSelect_limit_falsy _ (by simp [jsTruthyNum, hlf])
  · intro ht hne hnan
    unfold parseUrlParams
    rw [if_neg (by simpa using hcond)]
    have hlf : limitField (getParam entries "offset") = some none := by
      rw [ht]; simp [limitField, hne, hnan]
    constructor
    · exact hlf
    · exact buildSelect_offset_falsy _ (by simp [jsTruthyNum, hlf])

theorem C5_amended_nan_limit_dropped_witness :
    (jsTruthyStr (getParam c5Entries "table") = true ∧
     jsTruthyStr (getParam c5Entries "operation") = true) ∧
    ((getParam c5Entries "limit" = some "abc" → "abc" ≠ "" → parseIntJS "abc" = none →
        limitNaNDropped (parseUrlParams c5Entries)) ∧
     (getParam c5Entries "offset" = some "abc" → "abc" ≠ "" → parseIntJS "abc" = none →
        offsetNaNDropped (parseUrlParams c5Entries))) :=
  ⟨⟨by decide, by decide⟩,
   C5_amended_nan_limit_dropped c5Entries "abc" "abc" (by decide) (by decide)⟩




/-- Same column names, in the same order, in two optional mappings. -/
def sameKeys (a b : Option (List (String × String))) : Prop :=
  a.map (fun l => l.map (fun kv => kv.1)) = b.map (fun l => l.map (fun kv => kv.1))

instance (a b : Option (List (String × String))) : Decidable (sameKeys a b) := by
  unfold sameKeys; infer_instance

/-- Select value channel: on success the bound values are exactly the
`where` values in mapping order followed by the numeric limit/offset. -/
def valSpecSelect (p : QueryParams) : Prop :=
  match buildSelectQuery p with
  | .ok b => b.values = whereVals p ++ numVals p
  | .error _ => True

/-- Insert value channel. -/
def valSpecInsert (p : QueryParams) : Prop :=
  match buildInsertQuery p with
  | .ok b => b.values = dataVals p
  | .error _ => True

/-- Update value channel: `data` values then `where` values. -/
def valSpecUpdate (p : QueryParams) : Prop :=
  match buildUpdateQuery p with
  | .ok b => b.values = dataVals p ++ whereVals p
  | .error _ => True

/-- Delete value channel. -/
def valSpecDelete (p : QueryParams) : Prop :=
  match buildDeleteQuery p with
  | .ok b => b.values = whereVals p
  | .error _ => True

theorem valSpecSelect_holds (p : QueryParams) : valSpecSelect p := by
  unfold valSpecSelect buildSelectQuery
  by_cases hL : jsTruthyNum p.limit = true
  <;> by_cases hO : jsTruthyNum p.offset = true
  <;> simp [hL, hO, numVals, selectWherePart_fst]

theorem valSpecInsert_holds (p : QueryParams) : valSpecInsert p := by
  unfold valSpecInsert buildInsertQuery
  rcases hd : p.data with _ | d
  · trivial
  · by_cases hdl : d.length = 0
    · simp [hdl]
    · simp [hdl, dataVals, hd]

theorem valSpecUpdate_holds (p : QueryParams) : valSpecUpdate p := by
  unfold valSpecUpdate buildUpdateQuery
  rcases hd : p.data with _ | d
  · trivial
  · by_cases hdl : d.length = 0
    · simp [hdl]
    · rcases hw : p.«where» with _ | w
      · simp [hdl]
      · by_cases hwl : w.length = 0
        · simp [hdl, hwl]
        · simp [hdl, hwl, buildConditions_fst, dataVals, whereVals, hd, hw]

theorem valSpecDelete_holds (p : QueryParams) : valSpecDelete p := by
  unfold valSpecDelete buildDeleteQuery
  rcases hw : p.«where» with _ | w
  · trivial
  · by_cases hwl : w.length = 0
    · simp [hwl]
    · simp [hwl, buildConditions_fst, whereVals, hw]




theorem selectWherePart_keys (p q : QueryParams)
    (h : sameKeys q.«where» p.«where») :
    (selectWherePart q).2 = (selectWherePart p).2 ∧
    (selectWherePart q).1.length = (selectWherePart p).1.length := by
  unfold sameKeys at h
  rcases hp : p.«where» with _ | w <;> rcases hq : q.«where» with _ | w2 <;>
    rw [hp, hq] at h <;> simp at h
  · simp [selectWherePart, hp, hq]
  · have hlen : w2.length = w.length := by
      have := congrArg List.length h
      simpa using this
    unfold selectWherePart
    rw [hp, hq]
    by_cases hl : w.length > 0
    · simp only [hl, hlen ▸ hl, if_true]
      constructor
      · rw [buildConditions_snd, buildConditions_snd]
        have : w2.map Prod.fst = w.map Prod.fst := h
        rw [this]
      · simp [buildConditions_fst, hlen]
    · have hl2 : ¬ w2.length > 0 := by omega
      simp [hl, hl2]




theorem buildSelect_keysOnly (p : QueryParams)
    (w' d' : Option (List (String × String)))
    (hw : sameKeys { p with «where» := w', data := d' }.«where» p.«where») :
    (buildSelectQuery { p with «where» := w', data := d' }).map Built.query
      = (buildSelectQuery p).map Built.query := by
  obtain ⟨h2, h1⟩ := selectWherePart_keys p { p with «where» := w', data := d' } hw
  unfold buildSelectQuery
  by_cases hL : jsTruthyNum p.limit = true
  <;> by_cases hO : jsTruthyNum p.offset = true
  <;> simp [Except.map, hL, hO, h2, h1, selectColStr, selectJoinStr, selectOrderPart]




theorem buildInsert_keysOnly (p : QueryParams)
    (w' d' : Option (List (String × String)))
    (hd : sameKeys { p with «where» := w', data := d' }.data p.data) :
    (buildInsertQuery { p with «where» := w', data := d' }).map Built.query
      = (buildInsertQuery p).map Built.query := by
  unfold sameKeys at hd
  unfold buildInsertQuery
  rcases hp : p.data with _ | d <;> rcases hq : d' with _ | d2 <;>
    simp only [hp, hq] at hd ⊢ <;> simp at hd ⊢
  have hlen : d2.length = d.length := by
    have := congrArg List.length hd
    simpa using this
  by_cases hl : d.length = 0
  · have h0 : d = [] := List.length_eq_zero.mp hl
    have h02 : d2 = [] := List.length_eq_zero.mp (by omega)
    simp [h0, h02]
  · have h0 : d ≠ [] := fun e => hl (by simp [e])
    have h02 : d2 ≠ [] := fun e => hl (by simp [e] at hlen; omega)
    simp [h0, h02, Except.map, hlen, hd]




theorem buildUpdate_keysOnly (p : QueryParams)
    (w' d' : Option (List (String × String)))
    (hw : sameKeys { p with «where» := w', data := d' }.«where» p.«where»)
    (hd : sameKeys { p with «where» := w', data := d' }.data p.data) :
    (buildUpdateQuery { p with «where» := w', data := d' }).map Built.query
      = (buildUpdateQuery p).map Built.query := by
  unfold sameKeys at hw hd
  unfold buildUpdateQuery
  rcases hp : p.data with _ | d <;> rcases hq : d' with _ | d2 <;>
    simp only [hp, hq] at hd ⊢
  case none.some => simp at hd
  case some.none => simp at hd
  case some.some =>
  simp at hd
  have hdlen : d2.length = d.length := by
    have := congrArg List.length hd
    simpa using this
  by_cases hl : d.length = 0
  · have h0 : d = [] := List.length_eq_zero.mp hl
    have h02 : d2 = [] := List.length_eq_zero.mp (by omega)
    simp [h0, h02]
  · have h0 : d ≠ [] := fun e => hl (by simp [e])
    have h02 : d2 ≠ [] := fun e => hl (by simp [e] at hdlen; omega)
    rcases hpw : p.«where» with _ | w <;> rcases hqw : w' with _ | w2 <;>
      simp only [hpw, hqw] at hw ⊢ <;> simp at hw ⊢
    · simp [h0, h02]
    · have hwlen : w2.length = w.length := by
        have := congrArg List.length hw
        simpa using this
      by_cases hwl : w.length = 0
      · have hw0 : w = [] := List.length_eq_zero.mp hwl
        have hw02 : w2 = [] := List.length_eq_zero.mp (by omega)
        simp [h0, h02, hw0, hw02]
      · have hw0 : w ≠ [] := fun e => hwl (by simp [e])
        have hw02 : w2 ≠ [] := fun e => hwl (by simp [e] at hwlen; omega)
        have hcs : (buildConditions [] d2).2 = (buildConditions [] d).2 := by
          rw [buildConditions_snd, buildConditions_snd]
          have : d2.map Prod.fst = d.map Prod.fst := hd
          rw [this]
        have hcl : (buildConditions [] d2).1.length = (buildConditions [] d).1.length := by
          simp [buildConditions_fst, hdlen]
        have hcs2 : (buildConditions (buildConditions [] d2).1 w2).2
            = (buildConditions (buildConditions [] d).1 w).2 := by
          rw [buildConditions_snd, buildConditions_snd, hcl]
          have : w2.map Prod.fst = w.map Prod.fst := hw
          rw [this]
        simp [h0, h02, hw0, hw02, Except.map, hcs, hcs2]

theorem buildDelete_keysOnly (p : QueryParams)
    (w' d' : Option (List (String × String)))
    (hw : sameKeys { p with «where» := w', data := d' }.«where» p.«where») :
    (buildDeleteQuery { p with «where» := w', data := d' }).map Built.query
      = (buildDeleteQuery p).map Built.query := by
  unfold sameKeys at hw
  unfold buildDeleteQuery
  rcases hpw : p.«where» with _ | w <;> rcases hqw : w' with _ | w2 <;>
    simp only [hpw, hqw] at hw ⊢ <;> simp at hw ⊢
  have hwlen : w2.length = w.length := by
    have := congrArg List.length hw
    simpa using this
  by_cases hwl : w.length = 0
  · have hw0 : w = [] := List.length_eq_zero.mp hwl
    have hw02 : w2 = [] := List.length_eq_zero.mp (by omega)
    simp [hw0, hw02]
  · have hw0 : w ≠ [] := fun e => hwl (by simp [e])
    have hw02 : w2 ≠ [] := fun e => hwl (by simp [e] at hwlen; omega)
    have hcs : (buildConditions [] w2).2 = (buildConditions [] w).2 := by
      rw [buildConditions_snd, buildConditions_snd]
      have : w2.map Prod.fst = w.map Prod.fst := hw
      rw [this]
    simp [hw0, hw02, Except.map, hcs]



/-- C1: the SQL text emitted by every builder is a function of the request
shape only (table, column names, `where`/`data` keys, order, joins,
limit/offset presence) and never of the `where`/`data` values: replacing
the values (same keys) leaves the SQL text unchanged, while the values
themselves travel, in mapping order, into `boundValues` — this is the
formalisation of "never string-interpolated". -/
theorem C1_values_never_interpolated (p : QueryParams)
    (w' d' : Option (List (String × String)))
    (hw : sameKeys { p with «where» := w', data := d' }.«where» p.«where»)
    (hd : sameKeys { p with «where» := w', data := d' }.data p.data) :
    ((buildSelectQuery { p with «where» := w', data := d' }).map Built.query
        = (buildSelectQuery p).map Built.query ∧
     (buildInsertQuery { p with «where» := w', data := d' }).map Built.query
        = (buildInsertQuery p).map Built.query ∧
     (buildUpdateQuery { p with «where» := w', data := d' }).map Built.query
        = (buildUpdateQuery p).map Built.query ∧
     (buildDeleteQuery { p with «where» := w', data := d' }).map Built.query
        = (buildDeleteQuery p).map Built.query) ∧
    (valSpecSelect p ∧ valSpecInsert p ∧ valSpecUpdate p ∧ valSpecDelete p) :=
  ⟨⟨buildSelect_keysOnly p w' d' hw, buildInsert_keysOnly p w' d' hd,
    buildUpdate_keysOnly p w' d' hw hd, buildDelete_keysOnly p w' d' hw⟩,
   valSpecSelect_holds p, valSpecInsert_holds p, valSpecUpdate_holds p,
   valSpecDelete_holds p⟩

/-- A request with both `where` and `data` mappings, for the C1 witness. -/
def c1Base : QueryParams :=
  { table := "products", operation := "update", columns := none,
    «where» := some [("status", "active"), ("category", "mobile")],
    orderBy := none, orderDirection := "ASC", limit := some (some 3),
    offset := none, data := some [("name", "Test Product")], joins := [] }

/-- Adversarial replacement `where` values (semicolons, SQL keywords). -/
def c1W : Option (List (String × String)) :=
  some [("status", "x; DROP TABLE users; --"), ("category", "SELECT * FROM secrets")]

/-- Adversarial replacement `data` values. -/
def c1D : Option (List (String × String)) :=
  some [("name", "1 OR 1=1")]

theorem C1_values_never_interpolated_witness :
    (sameKeys { c1Base with «where» := c1W, data := c1D }.«where» c1Base.«where» ∧
     sameKeys { c1Base with «where» := c1W, data := c1D }.data c1Base.data) ∧
    (((buildSelectQuery { c1Base with «where» := c1W, data := c1D }).map Built.query
        = (buildSelectQuery c1Base).map Built.query ∧
      (buildInsertQuery { c1Base with «where» := c1W, data := c1D }).map Built.query
        = (buildInsertQuery c1Base).map Built.query ∧
      (buildUpdateQuery { c1Base with «where» := c1W, data := c1D }).map Built.query
        = (buildUpdateQuery c1Base).map Built.query ∧
      (buildDeleteQuery { c1Base with «where» := c1W, data := c1D }).map Built.query
        = (buildDeleteQuery c1Base).map Built.query) ∧
     (valSpecSelect c1Base ∧ valSpecInsert c1Base ∧ valSpecUpdate c1Base ∧
      valSpecDelete c1Base)) :=
  ⟨⟨by decide, by decide⟩,
   C1_values_never_interpolated c1Base c1W c1D (by decide) (by decide)⟩

/-- C2: for every accepted request, the `$`-placeholders of the emitted
SQL text are exactly `$1 … $n` in emission order where `n` is the length
of `boundValues`, in all four builders — so placeholder `i` refers to
`boundValues[i-1]`.  The hypothesis excludes a `$` inside an interpolated
identifier, which could forge a placeholder token. -/
theorem C2_placeholder_numbering (p : QueryParams)
    (h : dollarFreeParams p = true) :
    phSpec (buildSelectQuery p) ∧ phSpec (buildInsertQuery p) ∧
    phSpec (buildUpdateQuery p) ∧ phSpec (buildDeleteQuery p) :=
  ⟨phSpec_buildSelect p h, phSpec_buildInsert p h,
   phSpec_buildUpdate p h, phSpec_buildDelete p h⟩

/-- A full-featured request exercising every clause, for the C2 witness. -/
def c2Req : QueryParams :=
  { table := "products", operation := "update",
    columns := some ["id", "name"],
    «where» := some [("id", "1"), ("status", "active")],
    orderBy := some "name", orderDirection := "DESC",
    limit := some (some 5), offset := some (some 2),
    data := some [("price", "9.5"), ("stock", "3")],
    joins := [{ table := "users", type := "INNER",
                «on» := "products.user_id = users.id" }] }

theorem C2_placeholder_numbering_witness :
    dollarFreeParams c2Req = true ∧
    (phSpec (buildSelectQuery c2Req) ∧ phSpec (buildInsertQuery c2Req) ∧
     phSpec (buildUpdateQuery c2Req) ∧ phSpec (buildDeleteQuery c2Req)) :=
  ⟨by decide, C2_placeholder_numbering c2Req (by decide)⟩




theorem emit_svExists (st : Stmt) (db : Db) : (emit st db).svExists = db.svExists := rfl
theorem emit_versions (st : Stmt) (db : Db) : (emit st db).versions = db.versions := rfl
theorem emit_tables (st : Stmt) (db : Db) : (emit st db).tables = db.tables := rfl

theorem createSV_svExists (db : Db) :
    (createSchemaVersionsTable db).svExists = true := by
  unfold createSchemaVersionsTable
  dsimp only [emit]
  split <;> simp_all [emit]

theorem createSV_tables (db : Db) :
    (createSchemaVersionsTable db).tables = db.tables := by
  unfold createSchemaVersionsTable
  dsimp only [emit]
  split <;> rfl

theorem createSV_versions (db : Db) :
    (createSchemaVersionsTable db).versions
      = if db.svExists then db.versions else [] := by
  unfold createSchemaVersionsTable
  dsimp only [emit]
  split <;> simp_all [emit]

theorem getCurrent_snd (db : Db) :
    (getCurrentSchemaVersion db).2 = emit .selectVersion db := by
  unfold getCurrentSchemaVersion
  dsimp only [emit]
  split <;> rfl

theorem getCurrent_fst (db : Db) :
    (getCurrentSchemaVersion db).1 = schemaVersionOf db := by
  unfold getCurrentSchemaVersion schemaVersionOf
  split <;> simp_all [emit]

theorem record_fst (v : Int) (d : String) (db : Db) (hsv : db.svExists = true) :
    (recordSchemaVersion v d db).1 = .ok () := by
  unfold recordSchemaVersion
  simp [emit, hsv]

theorem record_svExists (v : Int) (d : String) (db : Db) :
    (recordSchemaVersion v d db).2.svExists = db.svExists := by
  unfold recordSchemaVersion
  dsimp only [emit]
  split <;> simp_all [emit]

theorem record_tables (v : Int) (d : String) (db : Db) :
    (recordSchemaVersion v d db).2.tables = db.tables := by
  unfold recordSchemaVersion
  dsimp only [emit]
  split <;> simp_all [emit]

theorem record_versions (v : Int) (d : String) (db : Db) (hsv : db.svExists = true) :
    (recordSchemaVersion v d db).2.versions = db.versions ++ [(v, d)] := by
  unfold recordSchemaVersion
  simp [emit, hsv]

theorem addTable_svExists (t : String) (db : Db) :
    (addTable t db).svExists = db.svExists := by
  unfold addTable
  dsimp only [emit]
  split <;> rfl

theorem addTable_versions (t : String) (db : Db) :
    (addTable t db).versions = db.versions := by
  unfold addTable
  dsimp only [emit]
  split <;> rfl

theorem addTable_tables (t : String) (db : Db) :
    (addTable t db).tables
      = if db.tables.contains t then db.tables else db.tables ++ [t] := by
  unfold addTable
  dsimp only [emit]
  split <;> simp_all [emit]

theorem addTable_contains_self (t : String) (db : Db) :
    (addTable t db).tables.contains t = true := by
  rw [addTable_tables]
  split
  · assumption
  · simp

theorem addTable_contains_mono (t u : String) (db : Db)
    (h : db.tables.contains u = true) :
    (addTable t db).tables.contains u = true := by
  rw [addTable_tables]
  split
  · exact h
  · simp at h ⊢
    exact Or.inl h

theorem createInitialTables_svExists (db : Db) :
    (createInitialTables db).svExists = db.svExists := by
  unfold createInitialTables
  simp [emit_svExists, addTable_svExists]

theorem createInitialTables_versions (db : Db) :
    (createInitialTables db).versions = db.versions := by
  unfold createInitialTables
  simp [emit_versions, addTable_versions]

theorem createInitialTables_users (db : Db) :
    (createInitialTables db).tables.contains "users" = true := by
  unfold createInitialTables
  simp only [emit_tables]
  exact addTable_contains_mono _ _ _ (addTable_contains_mono _ _ _
    (addTable_contains_mono _ _ _ (addTable_contains_self _ _)))




theorem runMigrationsAux_spec (r : Nat) : ∀ (v : Int) (db : Db),
    db.svExists = true →
    (runMigrationsAux v r db).1 = .ok () ∧
    (runMigrationsAux v r db).2.svExists = true ∧
    (runMigrationsAux v r db).2.tables = db.tables ∧
    (r = 0 → (runMigrationsAux v r db).2.versions = db.versions) ∧
    (1 ≤ r → ((runMigrationsAux v r db).2.versions).getLast?.map (fun x => x.1)
        = some (v + r - 1)) := by
  induction r with
  | zero =>
      intro v db hsv
      simp [runMigrationsAux, hsv]
  | succ r ih =>
      intro v db hsv
      have hrec := record_fst v ("Migration to version " ++ toString v) db hsv
      unfold runMigrationsAux
      rcases hr : recordSchemaVersion v ("Migration to version " ++ toString v) db
        with ⟨res, db2⟩
      rw [hr] at hrec
      simp only at hrec
      subst hrec
      dsimp only
      have hsv2 : db2.svExists = true := by
        have := record_svExists v ("Migration to version " ++ toString v) db
        rw [hr] at this
        simp only at this
        rw [this]
        exact hsv
      have htb2 : db2.tables = db.tables := by
        have := record_tables v ("Migration to version " ++ toString v) db
        rw [hr] at this
        simpa using this
      have hvs2 : db2.versions = db.versions ++ [(v, "Migration to version " ++ toString v)] := by
        have := record_versions v ("Migration to version " ++ toString v) db hsv
        rw [hr] at this
        simpa using this
      obtain ⟨h1, h2, h3, h4, h5⟩ := ih (v + 1) db2 hsv2
      refine ⟨h1, h2, by rw [h3, htb2], fun h => absurd h (Nat.succ_ne_zero r), ?_⟩
      intro _
      by_cases hrz : 1 ≤ r
      · rw [h5 hrz]
        congr 1
        push_cast
        omega
      · have hr0 : r = 0 := by omega
        subst hr0
        rw [h4 rfl, hvs2]
        simp




theorem initDatabase_from_ready (db : Db)
    (hsv : db.svExists = true)
    (hu : db.tables.contains "users" = true)
    (hv : 1 ≤ schemaVersionOf db) :
    initDatabase { forceReset := false, skipIfExists := false } db
      = (.ok (), emit (.selectCount "users")
          (getCurrentSchemaVersion (createSchemaVersionsTable db)).2) := by
  have hver1 : (getCurrentSchemaVersion (createSchemaVersionsTable db)).1
      = schemaVersionOf db := by
    rw [getCurrent_fst]
    simp [schemaVersionOf, createSV_svExists, createSV_versions, hsv]
  unfold initDatabase
  dsimp only
  rw [if_neg (by decide), if_neg (by simp), hver1,
    if_neg (by omega), if_neg (by unfold CURRENT_SCHEMA_VERSION; omega)]
  dsimp only
  have hcont : (emit (.selectCount "users")
      (getCurrentSchemaVersion (createSchemaVersionsTable db)).2).tables.contains "users"
      = true := by
    rw [emit_tables, getCurrent_snd, emit_tables, createSV_tables]
    exact hu
  rw [if_pos hcont]




theorem tableExists_snd (t : String) (db : Db) :
    (tableExists t db).2 = emit (.selectExists t) db := rfl

theorem initDatabase_ok_state (db : Db)
    (h : (initDatabase { forceReset := false, skipIfExists := false } db).1 = .ok ()) :
    (initDatabase { forceReset := false, skipIfExists := false } db).2.svExists = true ∧
    (initDatabase { forceReset := false, skipIfExists := false } db).2.tables.contains "users" = true ∧
    1 ≤ schemaVersionOf (initDatabase { forceReset := false, skipIfExists := false } db).2 := by
  unfold initDatabase at h ⊢
  rw [if_neg (by decide), if_neg (by simp)] at h ⊢
  dsimp only at h ⊢
  have hsv2 : ((getCurrentSchemaVersion (createSchemaVersionsTable db)).2).svExists = true := by
    rw [getCurrent_snd, emit_svExists, createSV_svExists]
  by_cases h0 : (getCurrentSchemaVersion (createSchemaVersionsTable db)).1 = 0
  · rw [if_pos h0] at h ⊢
    have hsvcit : (createInitialTables (tableExists "products" (tableExists "users"
        (getCurrentSchemaVersion (createSchemaVersionsTable db)).2).2).2).svExists = true := by
      rw [createInitialTables_svExists, tableExists_snd, emit_svExists,
        tableExists_snd, emit_svExists]
      exact hsv2
    rcases hrec : recordSchemaVersion CURRENT_SCHEMA_VERSION
        (if (tableExists "users" (getCurrentSchemaVersion (createSchemaVersionsTable db)).2).1 = true
            ∨ (tableExists "products" (tableExists "users"
                (getCurrentSchemaVersion (createSchemaVersionsTable db)).2).2).1 = true
          then "Schema recovery - updated existing tables"
          else "Initial schema creation")
        (createInitialTables (tableExists "products" (tableExists "users"
          (getCurrentSchemaVersion (createSchemaVersionsTable db)).2).2).2) with ⟨res, dbR⟩
    have hres : res = .ok () := by
      have := record_fst CURRENT_SCHEMA_VERSION
        (if (tableExists "users" (getCurrentSchemaVersion (createSchemaVersionsTable db)).2).1 = true
            ∨ (tableExists "products" (tableExists "users"
                (getCurrentSchemaVersion (createSchemaVersionsTable db)).2).2).1 = true
          then "Schema recovery - updated existing tables"
          else "Initial schema creation")
        (createInitialTables (tableExists "products" (tableExists "users"
          (getCurrentSchemaVersion (createSchemaVersionsTable db)).2).2).2) hsvcit
      rw [hrec] at this
      simpa using this
    subst hres
    dsimp only at h ⊢
    have hsvR : dbR.svExists = true := by
      have := record_svExists CURRENT_SCHEMA_VERSION
        (if (tableExists "users" (getCurrentSchemaVersion (createSchemaVersionsTable db)).2).1 = true
            ∨ (tableExists "products" (tableExists "users"
                (getCurrentSchemaVersion (createSchemaVersionsTable db)).2).2).1 = true
          then "Schema recovery - updated existing tables"
          else "Initial schema creation")
        (createInitialTables (tableExists "products" (tableExists "users"
          (getCurrentSchemaVersion (createSchemaVersionsTable db)).2).2).2)
      rw [hrec] at this
      simp only at this
      rw [this, hsvcit]
    have huR : dbR.tables.contains "users" = true := by
      have := record_tables CURRENT_SCHEMA_VERSION
        (if (tableExists "users" (getCurrentSchemaVersion (createSchemaVersionsTable db)).2).1 = true
            ∨ (tableExists "products" (tableExists "users"
                (getCurrentSchemaVersion (createSchemaVersionsTable db)).2).2).1 = true
          then "Schema recovery - updated existing tables"
          else "Initial schema creation")
        (createInitialTables (tableExists "products" (tableExists "users"
          (getCurrentSchemaVersion (createSchemaVersionsTable db)).2).2).2)
      rw [hrec] at this
      simp only at this
      rw [this]
      exact createInitialTables_users _
    have hvR : (dbR.versions).getLast?.map (fun x => x.1) = some 1 := by
      have := record_versions CURRENT_SCHEMA_VERSION
        (if (tableExists "users" (getCurrentSchemaVersion (createSchemaVersionsTable db)).2).1 = true
            ∨ (tableExists "products" (tableExists "users"
                (getCurrentSchemaVersion (createSchemaVersionsTable db)).2).2).1 = true
          then "Schema recovery - updated existing tables"
          else "Initial schema creation")
        (createInitialTables (tableExists "products" (tableExists "users"
          (getCurrentSchemaVersion (createSchemaVersionsTable db)).2).2).2) hsvcit
      rw [hrec] at this
      simp only at this
      rw [this]
      simp [CURRENT_SCHEMA_VERSION]
    have hcont : (emit (Stmt.selectCount "users") dbR).tables.contains "users" = true := by
      rw [emit_tables]; exact huR
    rw [if_pos hcont]
    refine ⟨by rw [emit_svExists]; exact hsvR, by rw [emit_tables]; exact huR, ?_⟩
    unfold schemaVersionOf
    rw [emit_svExists]
    simp [hsvR, emit_versions, hvR]
  · by_cases hlt : (getCurrentSchemaVersion (createSchemaVersionsTable db)).1
        < CURRENT_SCHEMA_VERSION
    · -- incremental migration branch
      rw [if_neg h0, if_pos hlt] at h ⊢
      unfold runMigrations at h ⊢
      rcases hrm : runMigrationsAux ((getCurrentSchemaVersion (createSchemaVersionsTable db)).1 + 1)
          ((CURRENT_SCHEMA_VERSION - (getCurrentSchemaVersion (createSchemaVersionsTable db)).1).toNat)
          ((getCurrentSchemaVersion (createSchemaVersionsTable db)).2) with ⟨res, dbM⟩
      have spec := runMigrationsAux_spec
        ((CURRENT_SCHEMA_VERSION - (getCurrentSchemaVersion (createSchemaVersionsTable db)).1).toNat)
        ((getCurrentSchemaVersion (createSchemaVersionsTable db)).1 + 1)
        ((getCurrentSchemaVersion (createSchemaVersionsTable db)).2) hsv2
      rw [hrm] at spec
      obtain ⟨s1, s2, s3, _, s5⟩ := spec
      simp only at s1 s2 s3 s5
      subst s1
      rw [hrm] at h
      dsimp only at h ⊢
      have hr1 : 1 ≤ (CURRENT_SCHEMA_VERSION
          - (getCurrentSchemaVersion (createSchemaVersionsTable db)).1).toNat := by
        unfold CURRENT_SCHEMA_VERSION at hlt ⊢
        omega
      have hlast : (dbM.versions).getLast?.map (fun x => x.1) = some 1 := by
        rw [s5 hr1]
        congr 1
        unfold CURRENT_SCHEMA_VERSION at hlt ⊢
        omega
      by_cases hcont : (emit (Stmt.selectCount "users") dbM).tables.contains "users" = true
      · rw [if_pos hcont] at h ⊢
        refine ⟨by rw [emit_svExists]; exact s2, hcont, ?_⟩
        unfold schemaVersionOf
        rw [emit_svExists]
        simp [s2, emit_versions, hlast]
      · rw [if_neg hcont] at h
        simp at h
    · -- already up to date branch
      rw [if_neg h0, if_neg hlt] at h ⊢
      dsimp only at h ⊢
      by_cases hcont : (emit (Stmt.selectCount "users")
          ((getCurrentSchemaVersion (createSchemaVersionsTable db)).2)).tables.contains "users" = true
      · rw [if_pos hcont] at h ⊢
        refine ⟨by rw [emit_svExists]; exact hsv2, hcont, ?_⟩
        have hval : schemaVersionOf (emit (Stmt.selectCount "users")
            ((getCurrentSchemaVersion (createSchemaVersionsTable db)).2))
            = (getCurrentSchemaVersion (createSchemaVersionsTable db)).1 := by
          rw [getCurrent_fst]
          unfold schemaVersionOf
          rw [emit_svExists, getCurrent_snd, emit_svExists, createSV_svExists,
            emit_versions, emit_versions]
        rw [hval]
        unfold CURRENT_SCHEMA_VERSION at hlt
        omega
      · rw [if_neg hcont] at h
        simp at h




theorem schemaVersionOf_after (db : Db) (hsv : db.svExists = true) :
    schemaVersionOf (emit (.selectCount "users")
      (getCurrentSchemaVersion (createSchemaVersionsTable db)).2) = schemaVersionOf db := by
  unfold schemaVersionOf
  rw [emit_svExists, getCurrent_snd, emit_svExists, createSV_svExists,
    emit_versions, emit_versions, createSV_versions]
  simp [hsv]

/-- C7: running the migration routine twice with
`forceReset = false, skipIfExists = false` is idempotent — if the first
run succeeds, the second run raises no error and leaves the schema version
exactly as the first run left it. -/
theorem C7_migration_idempotent (db : Db)
    (h1 : (initDatabase { forceReset := false, skipIfExists := false } db).1 = .ok ()) :
    (initDatabase { forceReset := false, skipIfExists := false }
        (initDatabase { forceReset := false, skipIfExists := false } db).2).1 = .ok () ∧
    schemaVersionOf (initDatabase { forceReset := false, skipIfExists := false }
        (initDatabase { forceReset := false, skipIfExists := false } db).2).2
      = schemaVersionOf (initDatabase { forceReset := false, skipIfExists := false } db).2 := by
  obtain ⟨hsv, hu, hv⟩ := initDatabase_ok_state db h1
  have h2 := initDatabase_from_ready _ hsv hu hv
  refine ⟨?_, ?_⟩
  · rw [h2]
  · rw [h2]
    exact schemaVersionOf_after _ hsv

def c7Db : Db := { svExists := false, versions := [], tables := [], trace := [] }

theorem C7_migration_idempotent_witness :
    (initDatabase { forceReset := false, skipIfExists := false } c7Db).1 = .ok () ∧
    ((initDatabase { forceReset := false, skipIfExists := false }
        (initDatabase { forceReset := false, skipIfExists := false } c7Db).2).1 = .ok () ∧
     schemaVersionOf (initDatabase { forceReset := false, skipIfExists := false }
        (initDatabase { forceReset := false, skipIfExists := false } c7Db).2).2
      = schemaVersionOf (initDatabase { forceReset := false, skipIfExists := false } c7Db).2) :=
  ⟨by decide, C7_migration_idempotent c7Db (by decide)⟩



/-- A database state already at the target schema version, with all
managed relations present. -/
def c4Db : Db :=
  { svExists := true, versions := [(1, "Initial schema creation")],
    tables := ["users", "products", "orders", "order_items"], trace := [] }

/-- C4 counterexample: from an up-to-date state, `initDatabase` with
`skipIfExists = true` succeeds but still issues one DDL statement — the
unconditional `CREATE TABLE IF NOT EXISTS schema_versions` executed before
the version check — so the DDL count is 1, not 0. -/
theorem C4_counterexample_ddl_issued :
    (initDatabase { forceReset := false, skipIfExists := true } c4Db).1 = .ok () ∧
    ddlCount (initDatabase { forceReset := false, skipIfExists := true } c4Db).2.trace = 1 ∧
    ddlCount (initDatabase { forceReset := false, skipIfExists := true } c4Db).2.trace ≠ 0 := by
  decide

/-- C4 (amended): with `skipIfExists = true` and current version at least
the target, `initDatabase` terminates successfully right after the version
check, having issued exactly two statements — the bookkeeping
`CREATE TABLE IF NOT EXISTS schema_versions` (the single DDL) and the
version `SELECT` — and no other DDL. -/
theorem C4_skip_fast_path (db : Db) (htr : db.trace = [])
    (hver : CURRENT_SCHEMA_VERSION
      ≤ (getCurrentSchemaVersion (createSchemaVersionsTable db)).1) :
    (initDatabase { forceReset := false, skipIfExists := true } db).1 = .ok () ∧
    (initDatabase { forceReset := false, skipIfExists := true } db).2.trace
      = [Stmt.createTable "schema_versions" true, Stmt.selectVersion] ∧
    ddlCount (initDatabase { forceReset := false, skipIfExists := true } db).2.trace = 1 := by
  unfold initDatabase
  dsimp only
  rw [if_neg (by decide)]
  rw [if_pos ⟨rfl, hver⟩]
  refine ⟨rfl, ?_, ?_⟩
  · by_cases hsv : db.svExists
    <;> simp [createSchemaVersionsTable, getCurrentSchemaVersion, emit, htr, hsv]
  · by_cases hsv : db.svExists
    <;> simp [createSchemaVersionsTable, getCurrentSchemaVersion, emit, htr, hsv, ddlCount,
      Stmt.isDDL]

theorem C4_skip_fast_path_witness :
    (c4Db.trace = [] ∧ CURRENT_SCHEMA_VERSION
        ≤ (getCurrentSchemaVersion (createSchemaVersionsTable c4Db)).1) ∧
    ((initDatabase { forceReset := false, skipIfExists := true } c4Db).1 = .ok () ∧
     (initDatabase { forceReset := false, skipIfExists := true } c4Db).2.trace
       = [Stmt.createTable "schema_versions" true, Stmt.selectVersion] ∧
     ddlCount (initDatabase { forceReset := false, skipIfExists := true } c4Db).2.trace = 1) :=
  ⟨⟨by rfl, by decide⟩, C4_skip_fast_path c4Db (by rfl) (by decide)⟩


end YallaAdmin
